import Mathlib

/-!
# busuanzi visit counter: embedding of `main.go`

The development follows `main.go`:

* `normalizePrefix`, `pingLoop`, `init`: the two parts of `init()` that carry logic
  (lines 77-79 and 88-100);
* `siteUvKey`, `sitePvKey`, `pagePvKey`: the three key expressions of the handler
  (lines 140-141, 153, 166);
* `step`, `runSchedule`, `handler`: the `GET /` closure of `main()` (lines 108-177),
  with its three goroutines run under an explicit interleaving;
* `sAdd`, `sCard`, `hIncrBy`: the Redis commands the handler consumes, as a sequential
  model with typed keys and 64-bit counters;
* `send`, `process`, `call`: the client of lines 82-86, which sends a command and, after
  a transport error, sends it again up to `maxRetries` times.

What the Go standard library and gin compute from the raw HTTP request
(`c.Query`, `c.Request.Referer`, `c.ClientIP`, `url.ParseRequestURI`, `u.Hostname`,
`u.Path`) enters as data: request fields and a parser parameter.
-/

namespace Busuanzi

/-! ## The store -/

/-- A Redis value, as far as this program creates them: a set of members or a hash
whose fields hold integers (a field that was never written reads as `0`). -/
inductive Value where
  | set (members : Finset String)
  | hash (fields : String → Int)

/-- The keyspace: every key holds at most one value, of one type. -/
abbrev Store := String → Option Value

/-- The store with no key. -/
def emptyStore : Store := fun _ => none

/-- Errors a command can come back with. -/
inductive StoreErr where
  | wrongType
  | overflow
  | connection
  | timeout
  deriving DecidableEq, Repr

/-- What `Result()` of an integer command gives the caller: `(n, nil)` or `(_, err)`. -/
inductive Reply where
  | ok (n : Int)
  | err (e : StoreErr)
  deriving DecidableEq, Repr

/-- Largest value of a Redis counter (signed 64 bit). -/
def maxInt64 : Int := 9223372036854775807

/-- Smallest value of a Redis counter (signed 64 bit). -/
def minInt64 : Int := -9223372036854775808

/-- Members of the set at `key`; a missing key, or one of the wrong type, has none. -/
def members (s : Store) (key : String) : Finset String :=
  match s key with
  | some (Value.set m) => m
  | _ => ∅

/-- Value of `field` in the hash at `key`; `0` when the key or the field is missing. -/
def hget (s : Store) (key field : String) : Int :=
  match s key with
  | some (Value.hash f) => f field
  | _ => 0

/-- `SADD key member`: the reply is the number of members actually added. -/
def sAdd (s : Store) (key member : String) : Reply × Store :=
  match s key with
  | some (Value.hash _) => (Reply.err StoreErr.wrongType, s)
  | some (Value.set m) =>
      (Reply.ok (if member ∈ m then 0 else 1),
        Function.update s key (some (Value.set (insert member m))))
  | none => (Reply.ok 1, Function.update s key (some (Value.set {member})))

/-- `SCARD key`: the cardinality of the set, `0` for a missing key. It writes nothing. -/
def sCard (s : Store) (key : String) : Reply × Store :=
  match s key with
  | some (Value.hash _) => (Reply.err StoreErr.wrongType, s)
  | some (Value.set m) => (Reply.ok (m.card : Int), s)
  | none => (Reply.ok 0, s)

/-- `HINCRBY key field delta`: the reply is the new value; a missing key or field counts
from `0`; a result outside the signed 64-bit range is refused and nothing is written. -/
def hIncrBy (s : Store) (key field : String) (delta : Int) : Reply × Store :=
  match s key with
  | some (Value.set _) => (Reply.err StoreErr.wrongType, s)
  | some (Value.hash f) =>
      if f field + delta > maxInt64 ∨ f field + delta < minInt64 then
        (Reply.err StoreErr.overflow, s)
      else
        (Reply.ok (f field + delta),
          Function.update s key (some (Value.hash (Function.update f field (f field + delta)))))
  | none =>
      if delta > maxInt64 ∨ delta < minInt64 then
        (Reply.err StoreErr.overflow, s)
      else
        (Reply.ok delta,
          Function.update s key (some (Value.hash (Function.update (fun _ => 0) field delta))))

/-- What the transport does to one send of a command. -/
inductive Fault where
  | none
  | refused
  | replyLost
  deriving DecidableEq, Repr

/-- One send of a command: `refused` never reaches the store, `replyLost` is executed by
the store but the client reads an error. -/
def send (f : Fault) (cmd : Store → Reply × Store) (s : Store) : Reply × Store :=
  match f with
  | Fault.none => cmd s
  | Fault.refused => (Reply.err StoreErr.connection, s)
  | Fault.replyLost => (Reply.err StoreErr.timeout, (cmd s).2)

/-- `redis.Options.MaxRetries` of the client built at lines 82-86: the field is left
unset, which go-redis v8 turns into 3. -/
def maxRetries : Nat := 3

/-- Which errors make the client send the command again: transport errors do, an error
reply of the store does not. -/
def shouldRetry : StoreErr → Bool
  | StoreErr.connection => true
  | StoreErr.timeout => true
  | StoreErr.wrongType => false
  | StoreErr.overflow => false

/-- Whether the client sends the command again after this reply:
`if err == nil || !retry { return err }`. -/
def retry : Reply → Bool
  | Reply.ok _ => false
  | Reply.err e => shouldRetry e

/-- The retry loop of the client, `for attempt := 0; attempt <= MaxRetries; attempt++`,
with `n` attempts left after this one. `fs` lists what the transport does to this send
and to the following ones; a send past the end of the list goes through. -/
def process (cmd : Store → Reply × Store) : Nat → List Fault → Store → Reply × Store
  | 0, fs, s => send (fs.headD Fault.none) cmd s
  | n + 1, fs, s =>
      if retry (send (fs.headD Fault.none) cmd s).1 then
        process cmd n fs.tail (send (fs.headD Fault.none) cmd s).2
      else send (fs.headD Fault.none) cmd s

/-- Number of sends the retry loop makes. -/
def processSends (cmd : Store → Reply × Store) : Nat → List Fault → Store → Nat
  | 0, _, _ => 1
  | n + 1, fs, s =>
      if retry (send (fs.headD Fault.none) cmd s).1 then
        processSends cmd n fs.tail (send (fs.headD Fault.none) cmd s).2 + 1
      else 1

/-- One command issued through the client (`RedisServer.SAdd`, `.SCard`, `.HIncrBy`): the
first send and up to `maxRetries` re-sends. -/
def call (fs : List Fault) (cmd : Store → Reply × Store) (s : Store) : Reply × Store :=
  process cmd maxRetries fs s

/-- Number of times one command issued through the client is sent. -/
def sends (fs : List Fault) (cmd : Store → Reply × Store) (s : Store) : Nat :=
  processSends cmd maxRetries fs s

/-- The transport meets every send of a command with `f`. -/
def always (f : Fault) : List Fault := List.replicate (maxRetries + 1) f

/-- The transport behaviour of the four commands of one request, send by send. -/
structure Faults where
  sadd : List Fault
  scard : List Fault
  sitePv : List Fault
  pagePv : List Fault
  deriving DecidableEq, Repr

/-- Every send goes through. -/
def noFaults : Faults :=
  { sadd := [], scard := [], sitePv := [], pagePv := [] }

/-! ## `init()` -/

/-- `strings.HasSuffix(s, suffix)`:
`len(s) >= len(suffix) && s[len(s)-len(suffix):] == suffix`, on the characters of the
strings. -/
def hasSuffix (s suffix : String) : Bool :=
  decide (suffix.data.length ≤ s.data.length) &&
    decide (s.data.drop (s.data.length - suffix.data.length) = suffix.data)

/-- Lines 77-79 of `init()`:
`if Prefix != "" && !strings.HasSuffix(Prefix, ":") { Prefix += ":" }`. -/
def normalizePrefix (p : String) : String :=
  if p ≠ "" ∧ hasSuffix p ":" = false then p ++ ":" else p

/-- How the connectivity loop of `init()` ends. -/
inductive Startup where
  | panicked
  | returned
  deriving DecidableEq, Repr

/-- Lines 89-100 of `init()`: `for i := 3; i > 0; i-- { ping; if err != nil { log;
if i == 0 { panic } else { sleep; continue } } }`, started at `i`, with `n` pings
already issued. `pingOk k` tells whether ping number `k` (from 0) succeeds. The result
carries the number of pings issued. -/
def pingLoop (pingOk : Nat → Bool) : Nat → Nat → Startup × Nat
  | 0, n => (Startup.returned, n)
  | i + 1, n =>
      if pingOk n then pingLoop pingOk i (n + 1)
      else if i + 1 = 0 then (Startup.panicked, n + 1)
      else pingLoop pingOk i (n + 1)

/-- The `redis` block of the configuration (`Config.Redis`). -/
structure RedisConfig where
  Addr : String
  Password : String
  Db : Int
  Prefix : String
  deriving DecidableEq, Repr

/-- The configuration (`Config`). -/
structure Config where
  Listening : String
  Redis : RedisConfig
  deriving DecidableEq, Repr

/-- What `init()` leaves behind once the configuration file is read into `cfg`: the
configuration with its prefix normalised (lines 77-79), how the connectivity loop ended
and how many pings it sent (lines 89-100). -/
def init (cfg : Config) (pingOk : Nat → Bool) : Config × Startup × Nat :=
  ({ cfg with Redis := { cfg.Redis with Prefix := normalizePrefix cfg.Redis.Prefix } },
    pingLoop pingOk 3 0)

/-- The process: `main()` runs, and the server listens, only when `init()` returned. -/
def serves (cfg : Config) (pingOk : Nat → Bool) : Bool :=
  decide ((init cfg pingOk).2.1 = Startup.returned)

/-! ## The `GET /` handler -/

/-- Key of the unique-visitor set: `config.Redis.Prefix+"site_uv:"+host`. -/
def siteUvKey (pfx host : String) : String := pfx ++ "site_uv:" ++ host

/-- Key of the site hash: `config.Redis.Prefix+"site_pv"`. -/
def sitePvKey (pfx : String) : String := pfx ++ "site_pv"

/-- Key of the page hash: `config.Redis.Prefix+"page_pv:"+host`. -/
def pagePvKey (pfx host : String) : String := pfx ++ "page_pv:" ++ host

/-- The keys one request uses. -/
def requestKeys (pfx host : String) : List String :=
  [siteUvKey pfx host, sitePvKey pfx, pagePvKey pfx host]

/-- `strconv.FormatInt(n, 10)`. -/
def formatInt (n : Int) : String := toString n

/-- What the handler reads from the HTTP request: `c.Query("jsonpCallback")`,
`c.Request.Referer()` and `c.ClientIP()`. -/
structure Request where
  jsonpCallback : String
  referer : String
  clientIP : String
  deriving DecidableEq, Repr

/-- What the handler reads from a parsed referrer: `u.Hostname()` and `u.Path`. -/
structure URL where
  hostname : String
  path : String
  deriving DecidableEq, Repr

/-- The process-wide state the handler closes over: the configured key prefix (after
`init()`) and `url.ParseRequestURI`, which answers with a URL or with an error. -/
structure Env where
  Prefix : String
  parseRequestURI : String → Option URL

/-- The four store commands of one accepted request. -/
inductive Op where
  | sadd
  | scard
  | sitePv
  | pagePv
  deriving DecidableEq, Repr

/-- The variables the three goroutines share (lines 129-134), the store they talk to,
and a count of the commands sent to the store so far, re-sends included. -/
structure HState where
  store : Store
  site_uv : String
  site_pv : String
  page_pv : String
  calls : Nat

/-- A slot keeps its value when the command failed and takes the rendered integer when
it succeeded: `if err != nil { log; return }; slot = strconv.FormatInt(n, 10)`. -/
def assign (old : String) (r : Reply) : String :=
  match r with
  | Reply.ok n => formatInt n
  | Reply.err _ => old

/-- One command of one goroutine (lines 140, 141-146, 152-159, 165-172), issued through
the client. The reply of `SAdd` is dropped, as in the source. -/
def step (pfx : String) (u : URL) (ip : String) (fl : Faults) (op : Op) (st : HState) :
    HState :=
  match op with
  | Op.sadd =>
      { st with
        store := (call fl.sadd (fun s => sAdd s (siteUvKey pfx u.hostname) ip) st.store).2
        calls := st.calls +
          sends fl.sadd (fun s => sAdd s (siteUvKey pfx u.hostname) ip) st.store }
  | Op.scard =>
      { st with
        store := (call fl.scard (fun s => sCard s (siteUvKey pfx u.hostname)) st.store).2
        site_uv := assign st.site_uv
          (call fl.scard (fun s => sCard s (siteUvKey pfx u.hostname)) st.store).1
        calls := st.calls +
          sends fl.scard (fun s => sCard s (siteUvKey pfx u.hostname)) st.store }
  | Op.sitePv =>
      { st with
        store := (call fl.sitePv (fun s => hIncrBy s (sitePvKey pfx) u.hostname 1) st.store).2
        site_pv := assign st.site_pv
          (call fl.sitePv (fun s => hIncrBy s (sitePvKey pfx) u.hostname 1) st.store).1
        calls := st.calls +
          sends fl.sitePv (fun s => hIncrBy s (sitePvKey pfx) u.hostname 1) st.store }
  | Op.pagePv =>
      { st with
        store :=
          (call fl.pagePv (fun s => hIncrBy s (pagePvKey pfx u.hostname) u.path 1) st.store).2
        page_pv := assign st.page_pv
          (call fl.pagePv (fun s => hIncrBy s (pagePvKey pfx u.hostname) u.path 1) st.store).1
        calls := st.calls +
          sends fl.pagePv (fun s => hIncrBy s (pagePvKey pfx u.hostname) u.path 1) st.store }

/-- The commands run one after the other in the order the scheduler picked. -/
def runSchedule (pfx : String) (u : URL) (ip : String) (fl : Faults) (sched : List Op)
    (st : HState) : HState :=
  sched.foldl (fun acc op => step pfx u ip fl op acc) st

/-- The order in which the source text lists the commands. -/
def programOrder : List Op := [Op.sadd, Op.scard, Op.sitePv, Op.pagePv]

/-- The interleavings the three goroutines allow: each command once, and within the
first goroutine `SAdd` before `SCard`. -/
def ValidSchedule (sched : List Op) : Prop :=
  sched.Perm programOrder ∧ sched.indexOf Op.sadd < sched.indexOf Op.scard

instance (sched : List Op) : Decidable (ValidSchedule sched) := by
  unfold ValidSchedule
  infer_instance

/-- Body of a response: `c.JSON(status, gin.H{"code": .., "message": ..})` or the text
written by `c.Writer.WriteString`. -/
inductive Body where
  | json (code : Nat) (message : String)
  | text (s : String)
  deriving DecidableEq, Repr

/-- Answer of the handler. -/
structure Response where
  status : Nat
  body : Body
  deriving DecidableEq, Repr

/-- Line 176: the callback-wrapped payload. -/
def jsonp (callback site_uv page_pv site_pv : String) : String :=
  "try\x7b" ++ callback ++ "(\x7b\"site_uv\":" ++ site_uv ++ ",\"page_pv\":" ++ page_pv ++
    ",\"version\":2.4,\"site_pv\":" ++ site_pv ++ "\x7d)\x7dcatch(e)\x7b\x7d"

/-- Result of handling one request: the answer, the store afterwards and the number of
commands sent to the store, re-sends included. -/
structure Outcome where
  response : Response
  store : Store
  calls : Nat

/-- The closure registered for `GET /` (lines 108-177). `sched` is the interleaving of
the goroutines and `fl` the transport behaviour during this request. -/
def handler (env : Env) (fl : Faults) (sched : List Op) (req : Request) (s : Store) :
    Outcome :=
  if req.jsonpCallback = "" ∨ req.referer = "" then
    { response := { status := 404, body := Body.json 404 "请求错误" }, store := s, calls := 0 }
  else
    match env.parseRequestURI req.referer with
    | none =>
        { response := { status := 500, body := Body.json 500 "服务器内部错误" },
          store := s, calls := 0 }
    | some u =>
        let st := runSchedule env.Prefix u req.clientIP fl sched
          { store := s, site_uv := "0", site_pv := "0", page_pv := "0", calls := 0 }
        { response :=
            { status := 200,
              body := Body.text (jsonp req.jsonpCallback st.site_uv st.page_pv st.site_pv) },
          store := st.store, calls := st.calls }

/-! ## Derived notions used to state the properties -/

/-- The key a command works on. -/
def keyOf (pfx : String) (u : URL) : Op → String
  | Op.sadd => siteUvKey pfx u.hostname
  | Op.scard => siteUvKey pfx u.hostname
  | Op.sitePv => sitePvKey pfx
  | Op.pagePv => pagePvKey pfx u.hostname

/-- The command behind a step, transport included. -/
def cmdOf (pfx : String) (u : URL) (ip : String) (fl : Faults) : Op → Store → Reply × Store
  | Op.sadd => call fl.sadd (fun s => sAdd s (siteUvKey pfx u.hostname) ip)
  | Op.scard => call fl.scard (fun s => sCard s (siteUvKey pfx u.hostname))
  | Op.sitePv => call fl.sitePv (fun s => hIncrBy s (sitePvKey pfx) u.hostname 1)
  | Op.pagePv => call fl.pagePv (fun s => hIncrBy s (pagePvKey pfx u.hostname) u.path 1)

/-- Number of sends behind a step. -/
def sendsOf (pfx : String) (u : URL) (ip : String) (fl : Faults) : Op → Store → Nat
  | Op.sadd => sends fl.sadd (fun s => sAdd s (siteUvKey pfx u.hostname) ip)
  | Op.scard => sends fl.scard (fun s => sCard s (siteUvKey pfx u.hostname))
  | Op.sitePv => sends fl.sitePv (fun s => hIncrBy s (sitePvKey pfx) u.hostname 1)
  | Op.pagePv => sends fl.pagePv (fun s => hIncrBy s (pagePvKey pfx u.hostname) u.path 1)

/-- A command is local at `k` when it writes no other key and when its reply and the
value it leaves at `k` depend on the store only through the value at `k`. -/
structure LocalAt (k : String) (cmd : Store → Reply × Store) : Prop where
  frame : ∀ s k2, k2 ≠ k → (cmd s).2 k2 = s k2
  reply : ∀ s t, s k = t k → (cmd s).1 = (cmd t).1
  value : ∀ s t, s k = t k → (cmd s).2 k = (cmd t).2 k

/-- Reply the caller gets for `SAdd` when the request finds the store `s`. -/
def saddReply (pfx : String) (u : URL) (ip : String) (fl : Faults) (s : Store) : Reply :=
  (call fl.sadd (fun t => sAdd t (siteUvKey pfx u.hostname) ip) s).1

/-- The store right after the `SAdd` of the request. -/
def afterSAdd (pfx : String) (u : URL) (ip : String) (fl : Faults) (s : Store) : Store :=
  (call fl.sadd (fun t => sAdd t (siteUvKey pfx u.hostname) ip) s).2

/-- Reply the caller gets for `SCard`, sent after the `SAdd` of the same goroutine. -/
def scardReply (pfx : String) (u : URL) (ip : String) (fl : Faults) (s : Store) : Reply :=
  (call fl.scard (fun t => sCard t (siteUvKey pfx u.hostname)) (afterSAdd pfx u ip fl s)).1

/-- Reply the caller gets for the `HIncrBy` on the site hash. -/
def sitePvReply (pfx : String) (u : URL) (fl : Faults) (s : Store) : Reply :=
  (call fl.sitePv (fun t => hIncrBy t (sitePvKey pfx) u.hostname 1) s).1

/-- Reply the caller gets for the `HIncrBy` on the page hash. -/
def pagePvReply (pfx : String) (u : URL) (fl : Faults) (s : Store) : Reply :=
  (call fl.pagePv (fun t => hIncrBy t (pagePvKey pfx u.hostname) u.path 1) s).1

/-- Whether a reply carries an integer. -/
def Reply.isOk : Reply → Bool
  | Reply.ok _ => true
  | Reply.err _ => false

/-- The first send of each of the four commands goes through. -/
def firstSendsOk (fl : Faults) : Bool :=
  decide (fl.sadd.headD Fault.none = Fault.none) &&
    decide (fl.scard.headD Fault.none = Fault.none) &&
    decide (fl.sitePv.headD Fault.none = Fault.none) &&
    decide (fl.pagePv.headD Fault.none = Fault.none)

/-- No failure in a request that finds the store `s`: each of the four commands goes
through at its first send and comes back without error. -/
def allOk (pfx : String) (u : URL) (ip : String) (fl : Faults) (s : Store) : Bool :=
  firstSendsOk fl &&
    (saddReply pfx u ip fl s).isOk && (scardReply pfx u ip fl s).isOk &&
    (sitePvReply pfx u fl s).isOk && (pagePvReply pfx u fl s).isOk

/-- The four client calls of a request that finds the store `s` all return without
error, whatever number of sends each took. -/
def allReturnOk (pfx : String) (u : URL) (ip : String) (fl : Faults) (s : Store) : Bool :=
  (saddReply pfx u ip fl s).isOk && (scardReply pfx u ip fl s).isOk &&
    (sitePvReply pfx u fl s).isOk && (pagePvReply pfx u fl s).isOk

/-- Number of sends of the four commands of a request that finds the store `s`. -/
def totalSends (pfx : String) (u : URL) (ip : String) (fl : Faults) (s : Store) : Nat :=
  sends fl.sadd (fun t => sAdd t (siteUvKey pfx u.hostname) ip) s +
    sends fl.scard (fun t => sCard t (siteUvKey pfx u.hostname)) (afterSAdd pfx u ip fl s) +
    sends fl.sitePv (fun t => hIncrBy t (sitePvKey pfx) u.hostname 1) s +
    sends fl.pagePv (fun t => hIncrBy t (pagePvKey pfx u.hostname) u.path 1) s

/-- The store after the four commands, in program order. -/
def finalStore (pfx : String) (u : URL) (ip : String) (fl : Faults) (s : Store) : Store :=
  (call fl.pagePv (fun t => hIncrBy t (pagePvKey pfx u.hostname) u.path 1)
    (call fl.sitePv (fun t => hIncrBy t (sitePvKey pfx) u.hostname 1)
      (afterSAdd pfx u ip fl s)).2).2

/-! ## A concrete environment for the examples -/

/-- Characters of a plain host name or path segment. -/
def plainChar (c : Char) : Bool :=
  c.isAlphanum || c == '.' || c == '-' || c == '_'

/-- Splits `scheme:rest` at the first colon; the scheme is made of letters. -/
def splitScheme : List Char → Option (List Char × List Char)
  | [] => none
  | c :: cs =>
      if c = ':' then some ([], cs)
      else if c.isAlpha then (splitScheme cs).map (fun r => (c :: r.1, r.2))
      else none

/-- A referrer parser for the examples. It accepts the plain absolute URLs
`scheme://host/path` written with letters, digits, `.`, `-`, `_` and `/`, and gives for
them the host name and the path `url.ParseRequestURI` gives. It rejects every other
string, among them the ones `url.ParseRequestURI` rejects. The theorems below hold for
every parser; this one only instantiates them. -/
def plainParse (raw : String) : Option URL :=
  match splitScheme raw.data with
  | some (_ :: _, '/' :: '/' :: rest) =>
      if (rest.takeWhile (fun c => c != '/')).isEmpty then none
      else if (rest.takeWhile (fun c => c != '/')).all plainChar &&
          (rest.dropWhile (fun c => c != '/')).all (fun c => plainChar c || c == '/') then
        some
          { hostname := String.mk (rest.takeWhile (fun c => c != '/')),
            path := String.mk (rest.dropWhile (fun c => c != '/')) }
      else none
  | _ => none

/-- The environment of the worked example: key prefix `app:`. -/
def exampleEnv : Env := { Prefix := "app:", parseRequestURI := plainParse }

/-- The request of the worked example. -/
def exampleRequest : Request :=
  { jsonpCallback := "cb", referer := "https://example.com/blog/post1",
    clientIP := "203.0.113.7" }

/-- The referrer of the worked example, parsed. -/
def exampleURL : URL := { hostname := "example.com", path := "/blog/post1" }

/-- A request whose referrer names the host `site_pv`. -/
def underscoreRequest : Request :=
  { jsonpCallback := "cb", referer := "http://site_pv/", clientIP := "203.0.113.7" }

/-- A store in which the visitor set of `example.com` under prefix `app:` already has two
members. -/
def visitedStore : Store :=
  Function.update emptyStore "app:site_uv:example.com"
    (some (Value.set {"198.51.100.1", "198.51.100.2"}))

/-! ## Locality of the store commands -/

theorem sAdd_local (k m : String) : LocalAt k (fun s => sAdd s k m) := by
  refine ⟨?_, ?_, ?_⟩
  · intro s k2 h
    simp only [sAdd]
    split <;> simp [Function.update_noteq h]
  · intro s t h
    simp only [sAdd, h]
    split <;> rfl
  · intro s t h
    simp only [sAdd, h]
    split <;> simp [*]

theorem sCard_local (k : String) : LocalAt k (fun s => sCard s k) := by
  refine ⟨?_, ?_, ?_⟩
  · intro s k2 _
    simp only [sCard]
    split <;> rfl
  · intro s t h
    simp only [sCard, h]
    split <;> rfl
  · intro s t h
    simp only [sCard, h]
    split <;> simp [*]

theorem hIncrBy_local (k f : String) (d : Int) : LocalAt k (fun s => hIncrBy s k f d) := by
  refine ⟨?_, ?_, ?_⟩
  · intro s k2 h
    simp only [hIncrBy]
    split <;> (try split) <;> simp [Function.update_noteq h]
  · intro s t h
    simp only [hIncrBy, h]
    split <;> (try split) <;> rfl
  · intro s t h
    simp only [hIncrBy, h]
    split <;> (try split) <;> simp [*]

theorem send_local {k : String} {cmd : Store → Reply × Store} (f : Fault)
    (h : LocalAt k cmd) : LocalAt k (send f cmd) := by
  cases f
  · exact ⟨h.frame, h.reply, h.value⟩
  · exact ⟨fun _ _ _ => rfl, fun _ _ _ => rfl, fun _ _ hst => hst⟩
  · exact ⟨h.frame, fun _ _ _ => rfl, h.value⟩

theorem process_local {k : String} {cmd : Store → Reply × Store} (h : LocalAt k cmd) :
    ∀ (n : Nat) (fs : List Fault), LocalAt k (process cmd n fs) := by
  intro n
  induction n with
  | zero =>
    intro fs
    have l := send_local (fs.headD Fault.none) h
    exact ⟨l.frame, l.reply, l.value⟩
  | succ n ih =>
    intro fs
    have l := send_local (fs.headD Fault.none) h
    refine ⟨?_, ?_, ?_⟩
    · intro s k2 hk
      simp only [process]
      split_ifs
      · rw [(ih fs.tail).frame _ _ hk, l.frame _ _ hk]
      · exact l.frame _ _ hk
    · intro s t hst
      simp only [process, l.reply s t hst]
      split_ifs
      · exact (ih fs.tail).reply _ _ (l.value s t hst)
      · exact l.reply s t hst
    · intro s t hst
      simp only [process, l.reply s t hst]
      split_ifs
      · exact (ih fs.tail).value _ _ (l.value s t hst)
      · exact l.value s t hst

theorem call_local {k : String} {cmd : Store → Reply × Store} (fs : List Fault)
    (h : LocalAt k cmd) : LocalAt k (call fs cmd) :=
  process_local h maxRetries fs

/-- The number of sends depends on the store only through the value at the key. -/
theorem processSends_congr {k : String} {cmd : Store → Reply × Store} (h : LocalAt k cmd) :
    ∀ (n : Nat) (fs : List Fault) (s t : Store), s k = t k →
      processSends cmd n fs s = processSends cmd n fs t := by
  intro n
  induction n with
  | zero =>
    intro fs s t _
    rfl
  | succ n ih =>
    intro fs s t hst
    have l := send_local (fs.headD Fault.none) h
    simp only [processSends, l.reply s t hst]
    split_ifs
    · rw [ih fs.tail _ _ (l.value s t hst)]
    · rfl

theorem sends_congr {k : String} {cmd : Store → Reply × Store} (h : LocalAt k cmd)
    (fs : List Fault) (s t : Store) (hst : s k = t k) : sends fs cmd s = sends fs cmd t :=
  processSends_congr h maxRetries fs s t hst

/-- A local command does not see what a local command at another key did. -/
theorem reply_after {k1 k2 : String} {c1 c2 : Store → Reply × Store}
    (h1 : LocalAt k1 c1) (h2 : LocalAt k2 c2) (hk : k1 ≠ k2) (s : Store) :
    (c1 (c2 s).2).1 = (c1 s).1 :=
  h1.reply _ _ (h2.frame s k1 hk)

/-- Local commands at different keys commute on the store. -/
theorem store_comm {k1 k2 : String} {c1 c2 : Store → Reply × Store}
    (h1 : LocalAt k1 c1) (h2 : LocalAt k2 c2) (hk : k1 ≠ k2) (s : Store) :
    (c1 (c2 s).2).2 = (c2 (c1 s).2).2 := by
  funext k
  by_cases e1 : k = k1
  · subst e1
    rw [h1.value _ s (h2.frame s k hk), h2.frame _ k hk]
  · by_cases e2 : k = k2
    · subst e2
      rw [h1.frame _ k e1, h2.value _ s (h1.frame s k (Ne.symm hk))]
    · rw [h1.frame _ k e1, h2.frame _ k e2, h2.frame _ k e2, h1.frame _ k e1]

/-! ## The keys of one request -/

theorem siteUvKey_data (p h : String) :
    (siteUvKey p h).data = p.data ++ (['s', 'i', 't', 'e', '_', 'u', 'v', ':'] ++ h.data) := by
  simp only [siteUvKey, String.data_append, List.append_assoc]

theorem sitePvKey_data (p : String) :
    (sitePvKey p).data = p.data ++ ['s', 'i', 't', 'e', '_', 'p', 'v'] := by
  simp only [sitePvKey, String.data_append]

theorem pagePvKey_data (p h : String) :
    (pagePvKey p h).data = p.data ++ (['p', 'a', 'g', 'e', '_', 'p', 'v', ':'] ++ h.data) := by
  simp only [pagePvKey, String.data_append, List.append_assoc]

theorem siteUvKey_ne_sitePvKey (p h : String) : siteUvKey p h ≠ sitePvKey p := by
  intro e
  have e2 := congrArg String.data e
  rw [siteUvKey_data, sitePvKey_data] at e2
  have e3 := List.append_cancel_left e2
  simp at e3

theorem siteUvKey_ne_pagePvKey (p h : String) : siteUvKey p h ≠ pagePvKey p h := by
  intro e
  have e2 := congrArg String.data e
  rw [siteUvKey_data, pagePvKey_data] at e2
  have e3 := List.append_cancel_left e2
  simp at e3

theorem sitePvKey_ne_pagePvKey (p h : String) : sitePvKey p ≠ pagePvKey p h := by
  intro e
  have e2 := congrArg String.data e
  rw [sitePvKey_data, pagePvKey_data] at e2
  have e3 := List.append_cancel_left e2
  simp at e3

/-! ## The goroutines commute -/

theorem cmdOf_local (pfx : String) (u : URL) (ip : String) (fl : Faults) (op : Op) :
    LocalAt (keyOf pfx u op) (cmdOf pfx u ip fl op) := by
  cases op
  · exact call_local _ (sAdd_local _ _)
  · exact call_local _ (sCard_local _)
  · exact call_local _ (hIncrBy_local _ _ _)
  · exact call_local _ (hIncrBy_local _ _ _)

theorem step_store (pfx : String) (u : URL) (ip : String) (fl : Faults) (op : Op)
    (st : HState) : (step pfx u ip fl op st).store = (cmdOf pfx u ip fl op st.store).2 := by
  cases op <;> rfl

theorem step_calls (pfx : String) (u : URL) (ip : String) (fl : Faults) (op : Op)
    (st : HState) :
    (step pfx u ip fl op st).calls = st.calls + sendsOf pfx u ip fl op st.store := by
  cases op <;> rfl

theorem sendsOf_congr (pfx : String) (u : URL) (ip : String) (fl : Faults) (op : Op)
    (s t : Store) (hst : s (keyOf pfx u op) = t (keyOf pfx u op)) :
    sendsOf pfx u ip fl op s = sendsOf pfx u ip fl op t := by
  cases op
  · exact sends_congr (sAdd_local _ _) _ s t hst
  · exact sends_congr (sCard_local _) _ s t hst
  · exact sends_congr (hIncrBy_local _ _ _) _ s t hst
  · exact sends_congr (hIncrBy_local _ _ _) _ s t hst

theorem step_site_uv (pfx : String) (u : URL) (ip : String) (fl : Faults) (op : Op)
    (st : HState) : (step pfx u ip fl op st).site_uv =
      if op = Op.scard then assign st.site_uv (cmdOf pfx u ip fl op st.store).1
      else st.site_uv := by
  cases op <;> rfl

theorem step_site_pv (pfx : String) (u : URL) (ip : String) (fl : Faults) (op : Op)
    (st : HState) : (step pfx u ip fl op st).site_pv =
      if op = Op.sitePv then assign st.site_pv (cmdOf pfx u ip fl op st.store).1
      else st.site_pv := by
  cases op <;> rfl

theorem step_page_pv (pfx : String) (u : URL) (ip : String) (fl : Faults) (op : Op)
    (st : HState) : (step pfx u ip fl op st).page_pv =
      if op = Op.pagePv then assign st.page_pv (cmdOf pfx u ip fl op st.store).1
      else st.page_pv := by
  cases op <;> rfl

theorem HState.ext_fields {a b : HState} (h1 : a.store = b.store) (h2 : a.site_uv = b.site_uv)
    (h3 : a.site_pv = b.site_pv) (h4 : a.page_pv = b.page_pv) (h5 : a.calls = b.calls) :
    a = b := by
  cases a
  cases b
  simp_all

/-- Two commands on different keys can be swapped. -/
theorem step_comm (pfx : String) (u : URL) (ip : String) (fl : Faults) (a b : Op)
    (hk : keyOf pfx u a ≠ keyOf pfx u b) (st : HState) :
    step pfx u ip fl a (step pfx u ip fl b st) = step pfx u ip fl b (step pfx u ip fl a st) := by
  have la := cmdOf_local pfx u ip fl a
  have lb := cmdOf_local pfx u ip fl b
  have hab : a ≠ b := fun e => hk (by rw [e])
  apply HState.ext_fields
  · simp only [step_store]
    exact store_comm la lb hk st.store
  · simp only [step_site_uv, step_store]
    rw [reply_after la lb hk, reply_after lb la (Ne.symm hk)]
    split_ifs <;> simp_all
  · simp only [step_site_pv, step_store]
    rw [reply_after la lb hk, reply_after lb la (Ne.symm hk)]
    split_ifs <;> simp_all
  · simp only [step_page_pv, step_store]
    rw [reply_after la lb hk, reply_after lb la (Ne.symm hk)]
    split_ifs <;> simp_all
  · simp only [step_calls, step_store]
    rw [sendsOf_congr pfx u ip fl a _ st.store (lb.frame _ _ hk),
      sendsOf_congr pfx u ip fl b _ st.store (la.frame _ _ (Ne.symm hk))]
    omega

theorem keyOf_sadd_sitePv (pfx : String) (u : URL) :
    keyOf pfx u Op.sadd ≠ keyOf pfx u Op.sitePv := siteUvKey_ne_sitePvKey _ _

theorem keyOf_sadd_pagePv (pfx : String) (u : URL) :
    keyOf pfx u Op.sadd ≠ keyOf pfx u Op.pagePv := siteUvKey_ne_pagePvKey _ _

theorem keyOf_scard_sitePv (pfx : String) (u : URL) :
    keyOf pfx u Op.scard ≠ keyOf pfx u Op.sitePv := siteUvKey_ne_sitePvKey _ _

theorem keyOf_scard_pagePv (pfx : String) (u : URL) :
    keyOf pfx u Op.scard ≠ keyOf pfx u Op.pagePv := siteUvKey_ne_pagePvKey _ _

theorem keyOf_sitePv_pagePv (pfx : String) (u : URL) :
    keyOf pfx u Op.sitePv ≠ keyOf pfx u Op.pagePv := sitePvKey_ne_pagePvKey _ _

/-- Every interleaving of the three goroutines ends in the state the program order ends
in: the goroutines work on three different keys and on three different variables. -/
theorem runSchedule_valid (pfx : String) (u : URL) (ip : String) (fl : Faults)
    (sched : List Op) (h : ValidSchedule sched) (st : HState) :
    runSchedule pfx u ip fl sched st = runSchedule pfx u ip fl programOrder st := by
  have hlen : sched.length = 4 := h.1.length_eq
  match sched, hlen with
  | [a, b, c, d], _ =>
    have c1 := step_comm pfx u ip fl Op.sadd Op.sitePv (keyOf_sadd_sitePv pfx u)
    have c2 := step_comm pfx u ip fl Op.sadd Op.pagePv (keyOf_sadd_pagePv pfx u)
    have c3 := step_comm pfx u ip fl Op.scard Op.sitePv (keyOf_scard_sitePv pfx u)
    have c4 := step_comm pfx u ip fl Op.scard Op.pagePv (keyOf_scard_pagePv pfx u)
    have c5 := step_comm pfx u ip fl Op.sitePv Op.pagePv (keyOf_sitePv_pagePv pfx u)
    cases a <;> cases b <;> cases c <;> cases d <;>
      first
        | exact absurd h (by decide)
        | simp only [runSchedule, programOrder, List.foldl, c1, c2, c3, c4, c5]

/-! ## The handler in closed form -/

theorem send_store_readonly {cmd : Store → Reply × Store} (hro : ∀ s, (cmd s).2 = s)
    (f : Fault) (s : Store) : (send f cmd s).2 = s := by
  cases f
  · exact hro s
  · rfl
  · exact hro s

theorem process_store_readonly {cmd : Store → Reply × Store} (hro : ∀ s, (cmd s).2 = s) :
    ∀ (n : Nat) (fs : List Fault) (s : Store), (process cmd n fs s).2 = s := by
  intro n
  induction n with
  | zero =>
    intro fs s
    exact send_store_readonly hro _ s
  | succ n ih =>
    intro fs s
    simp only [process]
    split_ifs
    · rw [ih, send_store_readonly hro]
    · exact send_store_readonly hro _ s

theorem sCard_store (k : String) (s : Store) : (sCard s k).2 = s := by
  simp only [sCard]
  split <;> rfl

theorem call_sCard_store (fs : List Fault) (k : String) (s : Store) :
    (call fs (fun t => sCard t k) s).2 = s :=
  process_store_readonly (sCard_store k) maxRetries fs s

/-- The state the program order ends in. -/
theorem runSchedule_programOrder (pfx : String) (u : URL) (ip : String) (fl : Faults)
    (s : Store) :
    runSchedule pfx u ip fl programOrder
        { store := s, site_uv := "0", site_pv := "0", page_pv := "0", calls := 0 } =
      { store := finalStore pfx u ip fl s,
        site_uv := assign "0" (scardReply pfx u ip fl s),
        site_pv := assign "0" (sitePvReply pfx u fl s),
        page_pv := assign "0" (pagePvReply pfx u fl s),
        calls := totalSends pfx u ip fl s } := by
  have lA := cmdOf_local pfx u ip fl Op.sadd
  have lS := cmdOf_local pfx u ip fl Op.sitePv
  have lP := cmdOf_local pfx u ip fl Op.pagePv
  have r1 : (cmdOf pfx u ip fl Op.sitePv (cmdOf pfx u ip fl Op.sadd s).2).1 =
      (cmdOf pfx u ip fl Op.sitePv s).1 :=
    reply_after lS lA (Ne.symm (keyOf_sadd_sitePv pfx u)) s
  have r2 : (cmdOf pfx u ip fl Op.pagePv
      (cmdOf pfx u ip fl Op.sitePv (cmdOf pfx u ip fl Op.sadd s).2).2).1 =
      (cmdOf pfx u ip fl Op.pagePv s).1 := by
    rw [reply_after lP lS (Ne.symm (keyOf_sitePv_pagePv pfx u)),
      reply_after lP lA (Ne.symm (keyOf_sadd_pagePv pfx u))]
  have n1 : sendsOf pfx u ip fl Op.sitePv (cmdOf pfx u ip fl Op.sadd s).2 =
      sendsOf pfx u ip fl Op.sitePv s :=
    sendsOf_congr pfx u ip fl Op.sitePv _ s (lA.frame _ _ (Ne.symm (keyOf_sadd_sitePv pfx u)))
  have n2 : sendsOf pfx u ip fl Op.pagePv
      (cmdOf pfx u ip fl Op.sitePv (cmdOf pfx u ip fl Op.sadd s).2).2 =
      sendsOf pfx u ip fl Op.pagePv s := by
    apply sendsOf_congr
    rw [lS.frame _ _ (Ne.symm (keyOf_sitePv_pagePv pfx u)),
      lA.frame _ _ (Ne.symm (keyOf_sadd_pagePv pfx u))]
  simp only [cmdOf, sendsOf] at r1 r2 n1 n2
  simp only [runSchedule, programOrder, List.foldl, step, call_sCard_store, finalStore,
    afterSAdd, scardReply, sitePvReply, pagePvReply, totalSends, r1, r2, n1, n2, zero_add]

/-- An accepted request, under any interleaving, in closed form. -/
theorem handler_accepted (env : Env) (fl : Faults) (sched : List Op) (req : Request)
    (s : Store) (u : URL) (hcb : req.jsonpCallback ≠ "") (href : req.referer ≠ "")
    (hparse : env.parseRequestURI req.referer = some u) (hs : ValidSchedule sched) :
    handler env fl sched req s =
      { response :=
          { status := 200,
            body := Body.text (jsonp req.jsonpCallback
              (assign "0" (scardReply env.Prefix u req.clientIP fl s))
              (assign "0" (pagePvReply env.Prefix u fl s))
              (assign "0" (sitePvReply env.Prefix u fl s))) },
        store := finalStore env.Prefix u req.clientIP fl s,
        calls := totalSends env.Prefix u req.clientIP fl s } := by
  simp only [handler, hcb, href, or_self, if_false, hparse,
    runSchedule_valid env.Prefix u req.clientIP fl sched hs, runSchedule_programOrder]

/-! ## What the final store holds -/

theorem finalStore_frame (pfx : String) (u : URL) (ip : String) (fl : Faults) (s : Store)
    (k : String) (hk : k ∉ requestKeys pfx u.hostname) :
    finalStore pfx u ip fl s k = s k := by
  simp only [requestKeys, List.mem_cons, List.mem_singleton, not_or, List.mem_nil_iff,
    or_false] at hk
  have lA := (cmdOf_local pfx u ip fl Op.sadd).frame
  have lS := (cmdOf_local pfx u ip fl Op.sitePv).frame
  have lP := (cmdOf_local pfx u ip fl Op.pagePv).frame
  simp only [cmdOf, keyOf] at lA lS lP
  simp only [finalStore, afterSAdd]
  rw [lP _ k hk.2.2, lS _ k hk.2.1, lA _ k hk.1]

theorem finalStore_siteUv (pfx : String) (u : URL) (ip : String) (fl : Faults) (s : Store) :
    finalStore pfx u ip fl s (siteUvKey pfx u.hostname) =
      afterSAdd pfx u ip fl s (siteUvKey pfx u.hostname) := by
  have lS := (cmdOf_local pfx u ip fl Op.sitePv).frame
  have lP := (cmdOf_local pfx u ip fl Op.pagePv).frame
  simp only [cmdOf, keyOf] at lS lP
  simp only [finalStore]
  rw [lP _ _ (siteUvKey_ne_pagePvKey pfx u.hostname),
    lS _ _ (siteUvKey_ne_sitePvKey pfx u.hostname)]

theorem finalStore_sitePv (pfx : String) (u : URL) (ip : String) (fl : Faults) (s : Store) :
    finalStore pfx u ip fl s (sitePvKey pfx) =
      (call fl.sitePv (fun t => hIncrBy t (sitePvKey pfx) u.hostname 1) s).2 (sitePvKey pfx) := by
  have lA := (cmdOf_local pfx u ip fl Op.sadd).frame
  have lS := (cmdOf_local pfx u ip fl Op.sitePv).value
  have lP := (cmdOf_local pfx u ip fl Op.pagePv).frame
  simp only [cmdOf, keyOf] at lA lS lP
  simp only [finalStore, afterSAdd]
  rw [lP _ _ (sitePvKey_ne_pagePvKey pfx u.hostname)]
  exact lS _ _ (lA _ _ (Ne.symm (siteUvKey_ne_sitePvKey pfx u.hostname)))

theorem finalStore_pagePv (pfx : String) (u : URL) (ip : String) (fl : Faults) (s : Store) :
    finalStore pfx u ip fl s (pagePvKey pfx u.hostname) =
      (call fl.pagePv (fun t => hIncrBy t (pagePvKey pfx u.hostname) u.path 1) s).2
        (pagePvKey pfx u.hostname) := by
  have lA := (cmdOf_local pfx u ip fl Op.sadd).frame
  have lS := (cmdOf_local pfx u ip fl Op.sitePv).frame
  have lP := (cmdOf_local pfx u ip fl Op.pagePv).value
  simp only [cmdOf, keyOf] at lA lS lP
  simp only [finalStore, afterSAdd]
  refine lP _ _ ?_
  rw [lS _ _ (Ne.symm (sitePvKey_ne_pagePvKey pfx u.hostname)),
    lA _ _ (Ne.symm (siteUvKey_ne_pagePvKey pfx u.hostname))]

/-! ## What a successful command did -/

theorem send_ok {f : Fault} {cmd : Store → Reply × Store} {s : Store} {n : Int}
    (h : (send f cmd s).1 = Reply.ok n) : send f cmd s = cmd s := by
  cases f
  · rfl
  · simp [send] at h
  · simp [send] at h

theorem retry_ok {r : Reply} {n : Int} (h : r = Reply.ok n) : retry r = false := by
  rw [h]
  rfl

/-- A command that goes through at its first send and whose reply is not a transport
error is sent once. -/
theorem call_first (fs : List Fault) (cmd : Store → Reply × Store) (s : Store)
    (hf : fs.headD Fault.none = Fault.none) (hr : retry (cmd s).1 = false) :
    call fs cmd s = cmd s ∧ sends fs cmd s = 1 := by
  have e : send (fs.headD Fault.none) cmd s = cmd s := by
    rw [hf]
    rfl
  constructor
  · show process cmd (2 + 1) fs s = cmd s
    rw [process, e, hr]
    rfl
  · show processSends cmd (2 + 1) fs s = 1
    rw [processSends, e, hr]
    rfl

theorem sAdd_retry (s : Store) (k m : String) : retry (sAdd s k m).1 = false := by
  simp only [sAdd]
  split <;> rfl

theorem sCard_retry (s : Store) (k : String) : retry (sCard s k).1 = false := by
  simp only [sCard]
  split <;> rfl

theorem hIncrBy_retry (s : Store) (k f : String) (d : Int) :
    retry (hIncrBy s k f d).1 = false := by
  simp only [hIncrBy]
  split <;> (try split) <;> rfl

theorem sCard_ok {s : Store} {k : String} {n : Int} (h : (sCard s k).1 = Reply.ok n) :
    n = ((members s k).card : Int) := by
  simp only [sCard, members] at *
  split at h <;> simp_all

theorem sAdd_ok {s : Store} {k m : String} {n : Int} (h : (sAdd s k m).1 = Reply.ok n) :
    (sAdd s k m).2 k = some (Value.set (insert m (members s k))) := by
  simp only [sAdd, members] at *
  split at h <;> simp_all

theorem hIncrBy_ok {s : Store} {k f : String} {n : Int}
    (h : (hIncrBy s k f 1).1 = Reply.ok n) :
    n = hget s k f + 1 ∧
      (hIncrBy s k f 1).2 k =
        some (Value.hash (Function.update (fun g => hget s k g) f (hget s k f + 1))) := by
  unfold hIncrBy at h ⊢
  unfold hget
  split at h
  · simp at h
  · rename_i g hg
    rw [hg]
    by_cases hr : g f + 1 > maxInt64 ∨ g f + 1 < minInt64
    · simp [hr] at h
    · simp only [hr, if_false, Reply.ok.injEq] at h
      simp only [hr, if_false, Function.update_same]
      exact ⟨h.symm, trivial⟩
  · rename_i hg
    rw [hg]
    by_cases hr : (1 : Int) > maxInt64 ∨ (1 : Int) < minInt64
    · simp [hr] at h
    · simp only [hr, if_false, Reply.ok.injEq] at h
      simp only [hr, if_false, Function.update_same, zero_add]
      exact ⟨h.symm, trivial⟩

theorem isOk_iff (r : Reply) : r.isOk = true ↔ ∃ n, r = Reply.ok n := by
  cases r <;> simp [Reply.isOk]

theorem allOk_iff (pfx : String) (u : URL) (ip : String) (fl : Faults) (s : Store) :
    allOk pfx u ip fl s = true ↔
      (fl.sadd.headD Fault.none = Fault.none ∧ fl.scard.headD Fault.none = Fault.none ∧
        fl.sitePv.headD Fault.none = Fault.none ∧ fl.pagePv.headD Fault.none = Fault.none) ∧
      (∃ a, saddReply pfx u ip fl s = Reply.ok a) ∧
      (∃ n, scardReply pfx u ip fl s = Reply.ok n) ∧
      (∃ n, sitePvReply pfx u fl s = Reply.ok n) ∧
      (∃ n, pagePvReply pfx u fl s = Reply.ok n) := by
  simp only [allOk, firstSendsOk, Bool.and_eq_true, isOk_iff, and_assoc, decide_eq_true_eq]

theorem hget_of_hash {s : Store} {k : String} {f : String → Int}
    (h : s k = some (Value.hash f)) (g : String) : hget s k g = f g := by
  simp only [hget, h]

theorem members_of_set {s : Store} {k : String} {m : Finset String}
    (h : s k = some (Value.set m)) : members s k = m := by
  simp only [members, h]

theorem hget_congr {s t : Store} {k : String} (h : s k = t k) (g : String) :
    hget s k g = hget t k g := by
  simp only [hget, h]

/-- A read-only command that comes back with an integer read it from the store the
call found. -/
theorem process_readonly_ok {cmd : Store → Reply × Store} (hro : ∀ s, (cmd s).2 = s) :
    ∀ (n : Nat) (fs : List Fault) (s : Store) (m : Int),
      (process cmd n fs s).1 = Reply.ok m → (cmd s).1 = Reply.ok m := by
  intro n
  induction n with
  | zero =>
    intro fs s m h
    simp only [process] at h
    rw [send_ok h] at h
    exact h
  | succ n ih =>
    intro fs s m h
    simp only [process] at h
    split_ifs at h
    · rw [send_store_readonly hro] at h
      exact ih _ _ _ h
    · rw [send_ok h] at h
      exact h

/-- Adding the same member again changes nothing. -/
theorem sAdd_again (s : Store) (k m : String) :
    insert m (members (sAdd s k m).2 k) = insert m (members s k) := by
  cases h : s k with
  | none => simp [sAdd, members, h]
  | some v => cases v <;> simp [sAdd, members, h]

theorem send_sAdd_again (f : Fault) (s : Store) (k m : String) :
    insert m (members (send f (fun t => sAdd t k m) s).2 k) = insert m (members s k) := by
  cases f
  · exact sAdd_again s k m
  · rfl
  · exact sAdd_again s k m

/-- A `SAdd` that comes back with an integer, after whatever number of sends, leaves the
member on top of the former members. -/
theorem process_sAdd_ok (k m : String) :
    ∀ (n : Nat) (fs : List Fault) (s : Store) (a : Int),
      (process (fun t => sAdd t k m) n fs s).1 = Reply.ok a →
      (process (fun t => sAdd t k m) n fs s).2 k =
        some (Value.set (insert m (members s k))) := by
  intro n
  induction n with
  | zero =>
    intro fs s a h
    simp only [process] at h ⊢
    have e := send_ok h
    rw [e] at h ⊢
    exact sAdd_ok h
  | succ n ih =>
    intro fs s a h
    simp only [process] at h ⊢
    split_ifs at h ⊢
    · rw [ih _ _ _ h, send_sAdd_again]
    · have e := send_ok h
      rw [e] at h ⊢
      exact sAdd_ok h

/-- A `HIncrBy` that comes back with an integer, after whatever number of sends, returns
the value the field holds afterwards. -/
theorem process_hIncrBy_ok (k f : String) :
    ∀ (n : Nat) (fs : List Fault) (s : Store) (m : Int),
      (process (fun t => hIncrBy t k f 1) n fs s).1 = Reply.ok m →
      hget (process (fun t => hIncrBy t k f 1) n fs s).2 k f = m := by
  intro n
  induction n with
  | zero =>
    intro fs s m h
    simp only [process] at h ⊢
    have e := send_ok h
    rw [e] at h ⊢
    have h2 := hIncrBy_ok h
    rw [hget_of_hash h2.2, Function.update_same]
    exact h2.1.symm
  | succ n ih =>
    intro fs s m h
    simp only [process] at h ⊢
    split_ifs at h ⊢
    · exact ih _ _ _ h
    · have e := send_ok h
      rw [e] at h ⊢
      have h2 := hIncrBy_ok h
      rw [hget_of_hash h2.2, Function.update_same]
      exact h2.1.symm

/-- After a successful `SAdd` the set holds the visitor on top of its former members. -/
theorem finalStore_siteUv_ok (pfx : String) (u : URL) (ip : String) (fl : Faults)
    (s : Store) (a : Int) (h : saddReply pfx u ip fl s = Reply.ok a) :
    finalStore pfx u ip fl s (siteUvKey pfx u.hostname) =
      some (Value.set (insert ip (members s (siteUvKey pfx u.hostname)))) := by
  rw [finalStore_siteUv]
  exact process_sAdd_ok _ _ _ _ _ a h

/-- The integer `SCard` returned is the cardinality of the set in the final store. -/
theorem scardReply_actual (pfx : String) (u : URL) (ip : String) (fl : Faults) (s : Store)
    (n : Int) (h : scardReply pfx u ip fl s = Reply.ok n) :
    n = ((members (finalStore pfx u ip fl s) (siteUvKey pfx u.hostname)).card : Int) := by
  have e : members (finalStore pfx u ip fl s) (siteUvKey pfx u.hostname) =
      members (afterSAdd pfx u ip fl s) (siteUvKey pfx u.hostname) := by
    simp only [members, finalStore_siteUv]
  rw [e]
  exact sCard_ok (process_readonly_ok (sCard_store _) _ _ _ n h)

/-- The integer a successful `HIncrBy` on the site hash returned is the value the field
holds in the final store. -/
theorem sitePvReply_final (pfx : String) (u : URL) (ip : String) (fl : Faults) (s : Store)
    (n : Int) (h : sitePvReply pfx u fl s = Reply.ok n) :
    n = hget (finalStore pfx u ip fl s) (sitePvKey pfx) u.hostname := by
  rw [hget_congr (finalStore_sitePv pfx u ip fl s)]
  exact (process_hIncrBy_ok _ _ _ _ _ n h).symm

/-- The integer a successful `HIncrBy` on the page hash returned is the value the field
holds in the final store. -/
theorem pagePvReply_final (pfx : String) (u : URL) (ip : String) (fl : Faults) (s : Store)
    (n : Int) (h : pagePvReply pfx u fl s = Reply.ok n) :
    n = hget (finalStore pfx u ip fl s) (pagePvKey pfx u.hostname) u.path := by
  rw [hget_congr (finalStore_pagePv pfx u ip fl s)]
  exact (process_hIncrBy_ok _ _ _ _ _ n h).symm

/-- A `HIncrBy` on the site hash that succeeds at its first send returned the old value
plus one and left it in the hash, all other fields as they were. -/
theorem sitePvReply_actual (pfx : String) (u : URL) (ip : String) (fl : Faults) (s : Store)
    (n : Int) (hf : fl.sitePv.headD Fault.none = Fault.none)
    (h : sitePvReply pfx u fl s = Reply.ok n) :
    n = hget s (sitePvKey pfx) u.hostname + 1 ∧
      finalStore pfx u ip fl s (sitePvKey pfx) =
        some (Value.hash (Function.update (fun g => hget s (sitePvKey pfx) g) u.hostname
          (hget s (sitePvKey pfx) u.hostname + 1))) := by
  rw [finalStore_sitePv]
  simp only [sitePvReply] at h
  have e := (call_first fl.sitePv (fun t => hIncrBy t (sitePvKey pfx) u.hostname 1) s hf
    (hIncrBy_retry s (sitePvKey pfx) u.hostname 1)).1
  rw [e] at h ⊢
  exact hIncrBy_ok h

/-- A `HIncrBy` on the page hash that succeeds at its first send returned the old value
plus one and left it in the hash, all other fields as they were. -/
theorem pagePvReply_actual (pfx : String) (u : URL) (ip : String) (fl : Faults) (s : Store)
    (n : Int) (hf : fl.pagePv.headD Fault.none = Fault.none)
    (h : pagePvReply pfx u fl s = Reply.ok n) :
    n = hget s (pagePvKey pfx u.hostname) u.path + 1 ∧
      finalStore pfx u ip fl s (pagePvKey pfx u.hostname) =
        some (Value.hash (Function.update (fun g => hget s (pagePvKey pfx u.hostname) g) u.path
          (hget s (pagePvKey pfx u.hostname) u.path + 1))) := by
  rw [finalStore_pagePv]
  simp only [pagePvReply] at h
  have e := (call_first fl.pagePv (fun t => hIncrBy t (pagePvKey pfx u.hostname) u.path 1) s
    hf (hIncrBy_retry s (pagePvKey pfx u.hostname) u.path 1)).1
  rw [e] at h ⊢
  exact hIncrBy_ok h

/-- With no failure each of the four commands is sent once. -/
theorem totalSends_allOk (pfx : String) (u : URL) (ip : String) (fl : Faults) (s : Store)
    (h : allOk pfx u ip fl s = true) : totalSends pfx u ip fl s = 4 := by
  obtain ⟨⟨f1, f2, f3, f4⟩, _⟩ := (allOk_iff _ _ _ _ _).mp h
  simp only [totalSends,
    (call_first fl.sadd (fun t => sAdd t (siteUvKey pfx u.hostname) ip) s f1
      (sAdd_retry _ _ _)).2,
    (call_first fl.scard (fun t => sCard t (siteUvKey pfx u.hostname)) _ f2
      (sCard_retry _ _)).2,
    (call_first fl.sitePv (fun t => hIncrBy t (sitePvKey pfx) u.hostname 1) s f3
      (hIncrBy_retry _ _ _ _)).2,
    (call_first fl.pagePv (fun t => hIncrBy t (pagePvKey pfx u.hostname) u.path 1) s f4
      (hIncrBy_retry _ _ _ _)).2]

/-! ## Keys under two prefixes: the cases that need no condition -/

theorem hasSuffix_false_iff (s t : String) :
    hasSuffix s t = false ↔ ¬ t.data <:+ s.data := by
  rw [← Bool.not_eq_true]
  apply not_congr
  simp only [hasSuffix, Bool.and_eq_true, decide_eq_true_eq]
  constructor
  · rintro ⟨_, h2⟩
    exact List.suffix_iff_eq_drop.mpr h2.symm
  · intro h
    exact ⟨h.length_le, (List.suffix_iff_eq_drop.mp h).symm⟩

/-- A list that continues with a colon and `h` does not end in `site_pv` unless `h`
does. -/
theorem colon_ne_sitePv (a b h : List Char)
    (hh : ¬ ['s', 'i', 't', 'e', '_', 'p', 'v'] <:+ h) :
    a ++ ':' :: h ≠ b ++ ['s', 'i', 't', 'e', '_', 'p', 'v'] := by
  intro e
  have h1 : h <:+ b ++ ['s', 'i', 't', 'e', '_', 'p', 'v'] := by
    rw [← e]
    exact ⟨a ++ [':'], by simp⟩
  have h2 : ':' :: h <:+ b ++ ['s', 'i', 't', 'e', '_', 'p', 'v'] := by
    rw [← e]
    exact List.suffix_append _ _
  have h3 : ['s', 'i', 't', 'e', '_', 'p', 'v'] <:+ b ++ ['s', 'i', 't', 'e', '_', 'p', 'v'] :=
    List.suffix_append _ _
  rcases Nat.lt_or_ge h.length 7 with hl | hl
  · have h4 : ':' :: h <:+ ['s', 'i', 't', 'e', '_', 'p', 'v'] :=
      List.suffix_of_suffix_length_le h2 h3
        (by simp only [List.length_cons, List.length_nil]; omega)
    have h5 : ':' ∈ ['s', 'i', 't', 'e', '_', 'p', 'v'] := h4.subset (List.mem_cons_self _ _)
    exact absurd h5 (by decide)
  · exact hh (List.suffix_of_suffix_length_le h3 h1 (by simpa using hl))

theorem siteUvKey_inj (p q h : String) (e : siteUvKey p h = siteUvKey q h) : p = q := by
  have e2 := congrArg String.data e
  rw [siteUvKey_data, siteUvKey_data] at e2
  exact String.ext (List.append_cancel_right e2)

theorem sitePvKey_inj (p q : String) (e : sitePvKey p = sitePvKey q) : p = q := by
  have e2 := congrArg String.data e
  rw [sitePvKey_data, sitePvKey_data] at e2
  exact String.ext (List.append_cancel_right e2)

theorem pagePvKey_inj (p q h : String) (e : pagePvKey p h = pagePvKey q h) : p = q := by
  have e2 := congrArg String.data e
  rw [pagePvKey_data, pagePvKey_data] at e2
  exact String.ext (List.append_cancel_right e2)

theorem siteUvKey_ne_pagePvKey_cross (p q h : String) : siteUvKey p h ≠ pagePvKey q h := by
  intro e
  have e2 := congrArg String.data e
  rw [siteUvKey_data, pagePvKey_data, ← List.append_assoc, ← List.append_assoc] at e2
  have e3 := (List.append_inj' (List.append_cancel_right e2) rfl).2
  exact absurd e3 (by decide)

/-- The replies of a request depend on the store only through its three keys. -/
theorem replies_congr (q : String) (u : URL) (ip : String) (fl : Faults) (s t : Store)
    (h : ∀ k ∈ requestKeys q u.hostname, t k = s k) :
    scardReply q u ip fl t = scardReply q u ip fl s ∧
      sitePvReply q u fl t = sitePvReply q u fl s ∧
      pagePvReply q u fl t = pagePvReply q u fl s := by
  have hU := h (siteUvKey q u.hostname) (by simp [requestKeys])
  have hS := h (sitePvKey q) (by simp [requestKeys])
  have hP := h (pagePvKey q u.hostname) (by simp [requestKeys])
  have lA := cmdOf_local q u ip fl Op.sadd
  have lC := cmdOf_local q u ip fl Op.scard
  have lS := cmdOf_local q u ip fl Op.sitePv
  have lP := cmdOf_local q u ip fl Op.pagePv
  exact ⟨lC.reply _ _ (lA.value _ _ hU), lS.reply _ _ hS, lP.reply _ _ hP⟩

/-! ## The key prefix -/

theorem hasSuffix_append_colon (p : String) : hasSuffix (p ++ ":") ":" = true := by
  have e : (":" : String).data = [':'] := rfl
  simp only [hasSuffix, String.data_append, e, List.length_append, List.length_singleton,
    Bool.and_eq_true, decide_eq_true_eq]
  refine ⟨by omega, ?_⟩
  rw [Nat.add_sub_cancel, List.drop_left]

theorem normalizePrefix_cases (p : String) :
    (p = "" ∧ normalizePrefix p = "") ∨
      (hasSuffix p ":" = true ∧ normalizePrefix p = p) ∨
      (p ≠ "" ∧ hasSuffix p ":" = false ∧ normalizePrefix p = p ++ ":") := by
  by_cases h1 : p = ""
  · left
    subst h1
    exact ⟨rfl, by decide⟩
  · cases h2 : hasSuffix p ":"
    · right
      right
      exact ⟨h1, rfl, by simp [normalizePrefix, h1, h2]⟩
    · right
      left
      exact ⟨rfl, by simp [normalizePrefix, h2]⟩

/-- On an empty store, with no transport fault, all four commands succeed. -/
theorem allOk_emptyStore (pfx : String) (u : URL) (ip : String) :
    allOk pfx u ip noFaults emptyStore = true := by
  simp [allOk, firstSendsOk, saddReply, scardReply, afterSAdd, sitePvReply, pagePvReply,
    noFaults, call, process, maxRetries, send, retry, sAdd, sCard, hIncrBy, emptyStore,
    Reply.isOk, maxInt64, minInt64]

/-! ## Keys under two normalised prefixes -/

theorem hasSuffix_true_iff (s t : String) : hasSuffix s t = true ↔ t.data <:+ s.data := by
  have h := hasSuffix_false_iff s t
  cases hs : hasSuffix s t
  · simp only [hs, true_iff] at h
    simp [h]
  · simp only [hs, Bool.true_eq_false, false_iff, not_not] at h
    simp [h]

/-- The result of the load-time normalisation is empty or ends in a colon. -/
theorem normalizePrefix_normal (p : String) :
    (normalizePrefix p).data = [] ∨ [':'] <:+ (normalizePrefix p).data := by
  rcases normalizePrefix_cases p with h | h | h
  · left
    rw [h.2]
  · right
    rw [h.2]
    exact (hasSuffix_true_iff p ":").mp h.1
  · right
    rw [h.2.2]
    exact (hasSuffix_true_iff (p ++ ":") ":").mp (hasSuffix_append_colon p)

/-- A list that continues with a colon and `h` is not a normalised prefix followed by
`site_pv`, unless `h` is `site_pv` or ends in `:site_pv`. -/
theorem colon_ne_sitePv_normal (a b h : List Char) (hb : b = [] ∨ [':'] <:+ b)
    (h1 : h ≠ ['s', 'i', 't', 'e', '_', 'p', 'v'])
    (h2 : ¬ ':' :: ['s', 'i', 't', 'e', '_', 'p', 'v'] <:+ h) :
    a ++ ':' :: h ≠ b ++ ['s', 'i', 't', 'e', '_', 'p', 'v'] := by
  intro e
  by_cases hs : ['s', 'i', 't', 'e', '_', 'p', 'v'] <:+ h
  · obtain ⟨r, rfl⟩ := hs
    have hb2 : b = a ++ ':' :: r := by
      have e2 : (a ++ ':' :: r) ++ ['s', 'i', 't', 'e', '_', 'p', 'v'] =
          b ++ ['s', 'i', 't', 'e', '_', 'p', 'v'] := by
        rw [← e]
        simp
      exact (List.append_cancel_right e2).symm
    have hne : r ≠ [] := by
      rintro rfl
      exact h1 rfl
    rcases hb with hb | hb
    · rw [hb2] at hb
      simp at hb
    · have hr : r <:+ b := by
        rw [hb2]
        exact ⟨a ++ [':'], by simp⟩
      have hl : [':'].length ≤ r.length := by
        cases r with
        | nil => exact absurd rfl hne
        | cons c cs => simp
      obtain ⟨r2, rfl⟩ := List.suffix_of_suffix_length_le hb hr hl
      exact h2 ⟨r2, by simp⟩
  · exact colon_ne_sitePv a b h hs e

theorem site_data_ne {h : String} (h1 : h ≠ "site_pv") :
    h.data ≠ ['s', 'i', 't', 'e', '_', 'p', 'v'] := by
  intro e
  exact h1 (String.ext e)

theorem site_data_suffix {h : String} (h2 : hasSuffix h ":site_pv" = false) :
    ¬ ':' :: ['s', 'i', 't', 'e', '_', 'p', 'v'] <:+ h.data :=
  (hasSuffix_false_iff h ":site_pv").mp h2

theorem siteUvKey_ne_sitePvKey_cross (p q h : String)
    (hq : q.data = [] ∨ [':'] <:+ q.data) (h1 : h ≠ "site_pv")
    (h2 : hasSuffix h ":site_pv" = false) : siteUvKey p h ≠ sitePvKey q := by
  intro e
  have e2 := congrArg String.data e
  rw [siteUvKey_data, sitePvKey_data] at e2
  refine colon_ne_sitePv_normal (p.data ++ ['s', 'i', 't', 'e', '_', 'u', 'v']) q.data h.data
    hq (site_data_ne h1) (site_data_suffix h2) ?_
  rw [← e2]
  simp

theorem pagePvKey_ne_sitePvKey_cross (p q h : String)
    (hq : q.data = [] ∨ [':'] <:+ q.data) (h1 : h ≠ "site_pv")
    (h2 : hasSuffix h ":site_pv" = false) : pagePvKey p h ≠ sitePvKey q := by
  intro e
  have e2 := congrArg String.data e
  rw [pagePvKey_data, sitePvKey_data] at e2
  refine colon_ne_sitePv_normal (p.data ++ ['p', 'a', 'g', 'e', '_', 'p', 'v']) q.data h.data
    hq (site_data_ne h1) (site_data_suffix h2) ?_
  rw [← e2]
  simp

/-- For a site that is not `site_pv` and does not end in `:site_pv`, the keys under two
different normalised prefixes are disjoint. -/
theorem requestKeys_disjoint (p q h : String) (hpq : p ≠ q)
    (hp : p.data = [] ∨ [':'] <:+ p.data) (hq : q.data = [] ∨ [':'] <:+ q.data)
    (h1 : h ≠ "site_pv") (h2 : hasSuffix h ":site_pv" = false) :
    ∀ k ∈ requestKeys p h, k ∉ requestKeys q h := by
  intro k hk hk2
  simp only [requestKeys, List.mem_cons, List.mem_singleton, List.mem_nil_iff,
    or_false] at hk hk2
  rcases hk with rfl | rfl | rfl <;> rcases hk2 with e | e | e
  · exact hpq (siteUvKey_inj p q h e)
  · exact siteUvKey_ne_sitePvKey_cross p q h hq h1 h2 e
  · exact siteUvKey_ne_pagePvKey_cross p q h e
  · exact siteUvKey_ne_sitePvKey_cross q p h hp h1 h2 e.symm
  · exact hpq (sitePvKey_inj p q e)
  · exact pagePvKey_ne_sitePvKey_cross q p h hp h1 h2 e.symm
  · exact siteUvKey_ne_pagePvKey_cross q p h e.symm
  · exact pagePvKey_ne_sitePvKey_cross p q h hq h1 h2 e
  · exact hpq (pagePvKey_inj p q h e)

/-- The condition on the site cannot be dropped: for the site `site_pv` and for every
site that ends in `:site_pv` there are two different normalised prefixes under which a
request uses a common key. -/
theorem requestKeys_collide (h : String)
    (hh : h = "site_pv" ∨ hasSuffix h ":site_pv" = true) :
    ∃ p q : String, p ≠ q ∧ normalizePrefix p = p ∧ normalizePrefix q = q ∧
      siteUvKey p h = sitePvKey q := by
  rcases hh with rfl | hh
  · exact ⟨"", "site_uv:", by decide, by decide, by decide, by decide⟩
  · obtain ⟨r, hr⟩ := (hasSuffix_true_iff h ":site_pv").mp hh
    have hr2 : h.data = r ++ ':' :: ['s', 'i', 't', 'e', '_', 'p', 'v'] := hr.symm
    refine ⟨"", "site_uv:" ++ String.mk r ++ ":", ?_, by decide, ?_, ?_⟩
    · intro e
      have e2 := congrArg String.data e
      simp only [String.data_append] at e2
      have e3 := congrArg List.length e2
      simp at e3
    · rcases normalizePrefix_cases ("site_uv:" ++ String.mk r ++ ":") with c | c | c
      · rw [c.2, c.1]
      · exact c.2
      · rw [hasSuffix_append_colon] at c
        exact absurd c.2.1 (by decide)
    · apply String.ext
      rw [siteUvKey_data, sitePvKey_data, hr2]
      simp only [String.data_append]
      show [] ++ (['s', 'i', 't', 'e', '_', 'u', 'v', ':'] ++
        (r ++ ':' :: ['s', 'i', 't', 'e', '_', 'p', 'v'])) =
        (['s', 'i', 't', 'e', '_', 'u', 'v', ':'] ++ r ++ [':']) ++
          ['s', 'i', 't', 'e', '_', 'p', 'v']
      simp

/-! ## The claims -/

/-- C1: an accepted request (non-empty callback, non-empty referrer that parses) is
answered with status 200 and the body `try{cb({"site_uv":U,"page_pv":P,"version":2.4,
"site_pv":S})}catch(e){}`, keys in this order and the callback copied verbatim, where
`U`, `P`, `S` are the decimal renderings of the integers the store returned for `SCARD`,
for `HINCRBY` on the page hash and for `HINCRBY` on the site hash. -/
theorem C1_jsonp_body (env : Env) (fl : Faults) (sched : List Op) (req : Request)
    (s : Store) (u : URL) (hcb : req.jsonpCallback ≠ "") (href : req.referer ≠ "")
    (hparse : env.parseRequestURI req.referer = some u) (hs : ValidSchedule sched) :
    (handler env fl sched req s).response.status = 200 ∧
      ∃ U P S : String,
        (handler env fl sched req s).response.body =
          Body.text ("try\x7b" ++ req.jsonpCallback ++ "(\x7b\"site_uv\":" ++ U ++
            ",\"page_pv\":" ++ P ++ ",\"version\":2.4,\"site_pv\":" ++ S ++
            "\x7d)\x7dcatch(e)\x7b\x7d") ∧
        (∀ n, scardReply env.Prefix u req.clientIP fl s = Reply.ok n → U = formatInt n) ∧
        (∀ n, pagePvReply env.Prefix u fl s = Reply.ok n → P = formatInt n) ∧
        (∀ n, sitePvReply env.Prefix u fl s = Reply.ok n → S = formatInt n) := by
  rw [handler_accepted env fl sched req s u hcb href hparse hs]
  refine ⟨rfl, _, _, _, rfl, ?_, ?_, ?_⟩ <;>
    · intro n hn
      rw [hn]
      rfl

/-- C1 at the worked example: callback `cb`, referrer `https://example.com/blog/post1`,
empty store, prefix `app:`. -/
theorem C1_jsonp_body_witness :
    (handler exampleEnv noFaults programOrder exampleRequest emptyStore).response =
        { status := 200,
          body := Body.text
            "try\x7bcb(\x7b\"site_uv\":1,\"page_pv\":1,\"version\":2.4,\"site_pv\":1\x7d)\x7dcatch(e)\x7b\x7d" } ∧
      ((handler exampleEnv noFaults programOrder exampleRequest emptyStore).response.status
          = 200 ∧
        ∃ U P S : String,
          (handler exampleEnv noFaults programOrder exampleRequest emptyStore).response.body =
            Body.text ("try\x7b" ++ exampleRequest.jsonpCallback ++ "(\x7b\"site_uv\":" ++ U ++
              ",\"page_pv\":" ++ P ++ ",\"version\":2.4,\"site_pv\":" ++ S ++
              "\x7d)\x7dcatch(e)\x7b\x7d") ∧
          (∀ n, scardReply exampleEnv.Prefix exampleURL exampleRequest.clientIP noFaults
            emptyStore = Reply.ok n → U = formatInt n) ∧
          (∀ n, pagePvReply exampleEnv.Prefix exampleURL noFaults emptyStore = Reply.ok n →
            P = formatInt n) ∧
          (∀ n, sitePvReply exampleEnv.Prefix exampleURL noFaults emptyStore = Reply.ok n →
            S = formatInt n)) :=
  ⟨by decide,
    C1_jsonp_body exampleEnv noFaults programOrder exampleRequest emptyStore exampleURL
      (by decide) (by decide) (by decide) (by decide)⟩

/-- C2: a request with an empty `jsonpCallback` or an empty `Referer` is answered with
status 404 and a JSON body whose code is 404; no store command is sent and the store is
unchanged. Nothing is asked of the referrer, so with an empty callback the answer is 404
whether the referrer is valid, malformed or absent. -/
theorem C2_missing_input_404 (env : Env) (fl : Faults) (sched : List Op) (req : Request)
    (s : Store) (h : req.jsonpCallback = "" ∨ req.referer = "") :
    (handler env fl sched req s).response =
        { status := 404, body := Body.json 404 "请求错误" } ∧
      (handler env fl sched req s).store = s ∧
      (handler env fl sched req s).calls = 0 := by
  simp only [handler, h, if_true, and_self]

/-- C2 at three requests: empty callback with a valid referrer, empty callback with a
malformed referrer, and a callback with no referrer. -/
theorem C2_missing_input_404_witness :
    ((handler exampleEnv noFaults programOrder
        { jsonpCallback := "", referer := "https://example.com/blog/post1",
          clientIP := "203.0.113.7" } emptyStore).response =
        { status := 404, body := Body.json 404 "请求错误" } ∧
      (handler exampleEnv noFaults programOrder
        { jsonpCallback := "", referer := "https://example.com/blog/post1",
          clientIP := "203.0.113.7" } emptyStore).store = emptyStore ∧
      (handler exampleEnv noFaults programOrder
        { jsonpCallback := "", referer := "https://example.com/blog/post1",
          clientIP := "203.0.113.7" } emptyStore).calls = 0) ∧
    (plainParse "example.com" = none ∧
      (handler exampleEnv noFaults programOrder
        { jsonpCallback := "", referer := "example.com", clientIP := "203.0.113.7" }
        emptyStore).response.status = 404) ∧
    (handler exampleEnv noFaults programOrder
        { jsonpCallback := "cb", referer := "", clientIP := "203.0.113.7" }
        emptyStore).response.status = 404 :=
  ⟨C2_missing_input_404 exampleEnv noFaults programOrder
      { jsonpCallback := "", referer := "https://example.com/blog/post1",
        clientIP := "203.0.113.7" } emptyStore (Or.inl rfl),
    ⟨by decide, by decide⟩, by decide⟩

/-- C7: a request with a non-empty callback and a non-empty referrer that the URL parser
rejects is answered with status 500 and a JSON body whose code is 500; no store command
is sent and the store is unchanged. -/
theorem C7_unparseable_referer_500 (env : Env) (fl : Faults) (sched : List Op)
    (req : Request) (s : Store) (hcb : req.jsonpCallback ≠ "") (href : req.referer ≠ "")
    (hparse : env.parseRequestURI req.referer = none) :
    (handler env fl sched req s).response =
        { status := 500, body := Body.json 500 "服务器内部错误" } ∧
      (handler env fl sched req s).store = s ∧
      (handler env fl sched req s).calls = 0 := by
  simp only [handler, hcb, href, or_self, if_false, hparse, and_self]

/-- C7 at the referrer `example.com`, which has no scheme and no leading slash. -/
theorem C7_unparseable_referer_500_witness :
    (handler exampleEnv noFaults programOrder
        { jsonpCallback := "cb", referer := "example.com", clientIP := "203.0.113.7" }
        emptyStore).response =
        { status := 500, body := Body.json 500 "服务器内部错误" } ∧
      (handler exampleEnv noFaults programOrder
        { jsonpCallback := "cb", referer := "example.com", clientIP := "203.0.113.7" }
        emptyStore).store = emptyStore ∧
      (handler exampleEnv noFaults programOrder
        { jsonpCallback := "cb", referer := "example.com", clientIP := "203.0.113.7" }
        emptyStore).calls = 0 :=
  C7_unparseable_referer_500 exampleEnv noFaults programOrder
    { jsonpCallback := "cb", referer := "example.com", clientIP := "203.0.113.7" }
    emptyStore (by decide) (by decide) (by decide)

/-- C3: when exactly one of the three counter operations fails, the request is still
answered with status 200; the slot of the failed operation is `0` and the two other slots
carry the integers the store returned, which are the values the store holds afterwards
(cardinality of the visitor set, site count, page count). First part: `HINCRBY` on the
page hash fails; second: `HINCRBY` on the site hash fails; third: `SCARD` fails. -/
theorem C3_isolated_failure (env : Env) (fl : Faults) (sched : List Op) (req : Request)
    (s : Store) (u : URL) (hcb : req.jsonpCallback ≠ "") (href : req.referer ≠ "")
    (hparse : env.parseRequestURI req.referer = some u) (hs : ValidSchedule sched) :
    (∀ a nU nS e,
      saddReply env.Prefix u req.clientIP fl s = Reply.ok a →
      scardReply env.Prefix u req.clientIP fl s = Reply.ok nU →
      sitePvReply env.Prefix u fl s = Reply.ok nS →
      pagePvReply env.Prefix u fl s = Reply.err e →
      (handler env fl sched req s).response =
          { status := 200,
            body := Body.text (jsonp req.jsonpCallback (formatInt nU) "0" (formatInt nS)) } ∧
        nU = ((members (handler env fl sched req s).store
          (siteUvKey env.Prefix u.hostname)).card : Int) ∧
        nS = hget (handler env fl sched req s).store (sitePvKey env.Prefix) u.hostname) ∧
    (∀ a nU nP e,
      saddReply env.Prefix u req.clientIP fl s = Reply.ok a →
      scardReply env.Prefix u req.clientIP fl s = Reply.ok nU →
      pagePvReply env.Prefix u fl s = Reply.ok nP →
      sitePvReply env.Prefix u fl s = Reply.err e →
      (handler env fl sched req s).response =
          { status := 200,
            body := Body.text (jsonp req.jsonpCallback (formatInt nU) (formatInt nP) "0") } ∧
        nU = ((members (handler env fl sched req s).store
          (siteUvKey env.Prefix u.hostname)).card : Int) ∧
        nP = hget (handler env fl sched req s).store (pagePvKey env.Prefix u.hostname)
          u.path) ∧
    (∀ a nS nP e,
      saddReply env.Prefix u req.clientIP fl s = Reply.ok a →
      sitePvReply env.Prefix u fl s = Reply.ok nS →
      pagePvReply env.Prefix u fl s = Reply.ok nP →
      scardReply env.Prefix u req.clientIP fl s = Reply.err e →
      (handler env fl sched req s).response =
          { status := 200,
            body := Body.text (jsonp req.jsonpCallback "0" (formatInt nP) (formatInt nS)) } ∧
        nS = hget (handler env fl sched req s).store (sitePvKey env.Prefix) u.hostname ∧
        nP = hget (handler env fl sched req s).store (pagePvKey env.Prefix u.hostname)
          u.path) := by
  rw [handler_accepted env fl sched req s u hcb href hparse hs]
  refine ⟨?_, ?_, ?_⟩
  · intro a nU nS e _ hU hS hP
    exact ⟨by rw [hU, hS, hP]; rfl, scardReply_actual _ _ _ _ _ _ hU,
      sitePvReply_final _ _ _ _ _ _ hS⟩
  · intro a nU nP e _ hU hP hS
    exact ⟨by rw [hU, hS, hP]; rfl, scardReply_actual _ _ _ _ _ _ hU,
      pagePvReply_final _ _ _ _ _ _ hP⟩
  · intro a nS nP e _ hS hP hU
    exact ⟨by rw [hU, hS, hP]; rfl, sitePvReply_final _ _ _ _ _ _ hS,
      pagePvReply_final _ _ _ _ _ _ hP⟩

/-- C3 at the worked example with every send of one command refused by the transport:
the page `HINCRBY`, the site `HINCRBY`, the `SCARD`. -/
theorem C3_isolated_failure_witness :
    ((handler exampleEnv { noFaults with pagePv := always Fault.refused } programOrder
        exampleRequest emptyStore).response =
        { status := 200,
          body := Body.text
            "try\x7bcb(\x7b\"site_uv\":1,\"page_pv\":0,\"version\":2.4,\"site_pv\":1\x7d)\x7dcatch(e)\x7b\x7d" } ∧
      (handler exampleEnv { noFaults with sitePv := always Fault.refused } programOrder
        exampleRequest emptyStore).response =
        { status := 200,
          body := Body.text
            "try\x7bcb(\x7b\"site_uv\":1,\"page_pv\":1,\"version\":2.4,\"site_pv\":0\x7d)\x7dcatch(e)\x7b\x7d" } ∧
      (handler exampleEnv { noFaults with scard := always Fault.refused } programOrder
        exampleRequest emptyStore).response =
        { status := 200,
          body := Body.text
            "try\x7bcb(\x7b\"site_uv\":0,\"page_pv\":1,\"version\":2.4,\"site_pv\":1\x7d)\x7dcatch(e)\x7b\x7d" }) ∧
    ((handler exampleEnv { noFaults with pagePv := always Fault.refused } programOrder
        exampleRequest emptyStore).response =
        { status := 200,
          body := Body.text (jsonp exampleRequest.jsonpCallback (formatInt 1) "0"
            (formatInt 1)) } ∧
      (1 : Int) = ((members (handler exampleEnv { noFaults with pagePv := always Fault.refused }
        programOrder exampleRequest emptyStore).store
          (siteUvKey exampleEnv.Prefix exampleURL.hostname)).card : Int) ∧
      (1 : Int) = hget (handler exampleEnv { noFaults with pagePv := always Fault.refused }
        programOrder exampleRequest emptyStore).store (sitePvKey exampleEnv.Prefix)
          exampleURL.hostname) :=
  ⟨⟨by decide, by decide, by decide⟩,
    (C3_isolated_failure exampleEnv { noFaults with pagePv := always Fault.refused } programOrder
      exampleRequest emptyStore exampleURL (by decide) (by decide) (by decide)
      (by decide)).1 1 1 1 StoreErr.connection (by decide) (by decide) (by decide)
      (by decide)⟩

/-- C8, as stated, fails: the client re-sends a command after a transport error. At the
worked example, with the reply of the first page `HINCRBY` lost and its re-send answered,
all four client calls return without error, yet field `/blog/post1` of
`app:page_pv:example.com` has grown by 2, the answer reports `page_pv` 2, and the store
was sent five commands. -/
theorem C8_store_effect_counterexample :
    allReturnOk exampleEnv.Prefix exampleURL exampleRequest.clientIP
        { noFaults with pagePv := [Fault.replyLost] } emptyStore = true ∧
      hget emptyStore "app:page_pv:example.com" "/blog/post1" = 0 ∧
      hget (handler exampleEnv { noFaults with pagePv := [Fault.replyLost] } programOrder
        exampleRequest emptyStore).store "app:page_pv:example.com" "/blog/post1" = 2 ∧
      (handler exampleEnv { noFaults with pagePv := [Fault.replyLost] } programOrder
        exampleRequest emptyStore).response =
        { status := 200,
          body := Body.text
            "try\x7bcb(\x7b\"site_uv\":1,\"page_pv\":2,\"version\":2.4,\"site_pv\":1\x7d)\x7dcatch(e)\x7b\x7d" } ∧
      (handler exampleEnv { noFaults with pagePv := [Fault.replyLost] } programOrder
        exampleRequest emptyStore).calls = 5 := by
  refine ⟨by decide, by decide, by decide, by decide, by decide⟩

/-- C8, amended: one accepted request whose four store commands all succeed at their
first send (the client re-sends none) changes the store in exactly these ways: the client
address joins the set at `Prefix+"site_uv:"+host`, field `host` of the hash at
`Prefix+"site_pv"` grows by exactly 1, field `path` of the hash at
`Prefix+"page_pv:"+host` grows by exactly 1; the other members of the set, the other
fields of the two hashes and every other key are as before, and the store was sent four
commands. -/
theorem C8_store_effect_amended (env : Env) (fl : Faults) (sched : List Op) (req : Request)
    (s : Store) (u : URL) (hcb : req.jsonpCallback ≠ "") (href : req.referer ≠ "")
    (hparse : env.parseRequestURI req.referer = some u) (hs : ValidSchedule sched)
    (hok : allOk env.Prefix u req.clientIP fl s = true) :
    (handler env fl sched req s).store (siteUvKey env.Prefix u.hostname) =
        some (Value.set (insert req.clientIP (members s (siteUvKey env.Prefix u.hostname)))) ∧
      (handler env fl sched req s).store (sitePvKey env.Prefix) =
        some (Value.hash (Function.update (fun g => hget s (sitePvKey env.Prefix) g)
          u.hostname (hget s (sitePvKey env.Prefix) u.hostname + 1))) ∧
      (handler env fl sched req s).store (pagePvKey env.Prefix u.hostname) =
        some (Value.hash (Function.update
          (fun g => hget s (pagePvKey env.Prefix u.hostname) g)
          u.path (hget s (pagePvKey env.Prefix u.hostname) u.path + 1))) ∧
      (∀ k, k ≠ siteUvKey env.Prefix u.hostname → k ≠ sitePvKey env.Prefix →
        k ≠ pagePvKey env.Prefix u.hostname → (handler env fl sched req s).store k = s k) ∧
      (handler env fl sched req s).calls = 4 := by
  rw [handler_accepted env fl sched req s u hcb href hparse hs]
  obtain ⟨⟨_, _, f3, f4⟩, ⟨a, hA⟩, _, ⟨nS, hS⟩, ⟨nP, hP⟩⟩ := (allOk_iff _ _ _ _ _).mp hok
  refine ⟨finalStore_siteUv_ok _ _ _ _ _ a hA,
    (sitePvReply_actual _ _ _ _ _ nS f3 hS).2, (pagePvReply_actual _ _ _ _ _ nP f4 hP).2, ?_,
    totalSends_allOk _ _ _ _ _ hok⟩
  intro k h1 h2 h3
  apply finalStore_frame
  simp only [requestKeys, List.mem_cons, List.mem_singleton, List.mem_nil_iff, or_false,
    not_or]
  exact ⟨h1, h2, h3⟩

/-- C8, amended, at the worked example: after the first request under prefix `app:` the
set `app:site_uv:example.com` has one member, field `example.com` of `app:site_pv` is 1
and field `/blog/post1` of `app:page_pv:example.com` is 1. -/
theorem C8_store_effect_amended_witness :
    ((members (handler exampleEnv noFaults programOrder exampleRequest emptyStore).store
        "app:site_uv:example.com").card = 1 ∧
      hget (handler exampleEnv noFaults programOrder exampleRequest emptyStore).store
        "app:site_pv" "example.com" = 1 ∧
      hget (handler exampleEnv noFaults programOrder exampleRequest emptyStore).store
        "app:page_pv:example.com" "/blog/post1" = 1) ∧
    ((handler exampleEnv noFaults programOrder exampleRequest emptyStore).store
        (siteUvKey exampleEnv.Prefix exampleURL.hostname) =
        some (Value.set (insert exampleRequest.clientIP
          (members emptyStore (siteUvKey exampleEnv.Prefix exampleURL.hostname)))) ∧
      (handler exampleEnv noFaults programOrder exampleRequest emptyStore).store
        (sitePvKey exampleEnv.Prefix) =
        some (Value.hash (Function.update (fun g => hget emptyStore
          (sitePvKey exampleEnv.Prefix) g)
          exampleURL.hostname (hget emptyStore (sitePvKey exampleEnv.Prefix)
            exampleURL.hostname + 1))) ∧
      (handler exampleEnv noFaults programOrder exampleRequest emptyStore).store
        (pagePvKey exampleEnv.Prefix exampleURL.hostname) =
        some (Value.hash (Function.update
          (fun g => hget emptyStore (pagePvKey exampleEnv.Prefix exampleURL.hostname) g)
          exampleURL.path (hget emptyStore (pagePvKey exampleEnv.Prefix exampleURL.hostname)
            exampleURL.path + 1))) ∧
      (∀ k, k ≠ siteUvKey exampleEnv.Prefix exampleURL.hostname →
        k ≠ sitePvKey exampleEnv.Prefix →
        k ≠ pagePvKey exampleEnv.Prefix exampleURL.hostname →
        (handler exampleEnv noFaults programOrder exampleRequest emptyStore).store k =
          emptyStore k) ∧
      (handler exampleEnv noFaults programOrder exampleRequest emptyStore).calls = 4) :=
  ⟨⟨by decide, by decide, by decide⟩,
    C8_store_effect_amended exampleEnv noFaults programOrder exampleRequest emptyStore
      exampleURL (by decide) (by decide) (by decide) (by decide) (by decide)⟩

/-- C4: with no failing command, two successive accepted requests from one client
address for one site and path (any callbacks, any interleavings) report a `site_pv` and a
`page_pv` that each grow by exactly 1 from the first answer to the second and the same
`site_uv`; the visitor set after both requests has at most one member more than before
the first. -/
theorem C4_two_requests (env : Env) (fl1 fl2 : Faults) (sched1 sched2 : List Op)
    (r1 r2 : Request) (s : Store) (u : URL)
    (hcb1 : r1.jsonpCallback ≠ "") (href1 : r1.referer ≠ "")
    (hparse1 : env.parseRequestURI r1.referer = some u)
    (hcb2 : r2.jsonpCallback ≠ "") (href2 : r2.referer ≠ "")
    (hparse2 : env.parseRequestURI r2.referer = some u)
    (hip : r2.clientIP = r1.clientIP)
    (hs1 : ValidSchedule sched1) (hs2 : ValidSchedule sched2)
    (hok1 : allOk env.Prefix u r1.clientIP fl1 s = true)
    (hok2 : allOk env.Prefix u r2.clientIP fl2 (handler env fl1 sched1 r1 s).store = true) :
    ∃ nU nP nS : Int,
      (handler env fl1 sched1 r1 s).response =
          { status := 200,
            body := Body.text
              (jsonp r1.jsonpCallback (formatInt nU) (formatInt nP) (formatInt nS)) } ∧
        (handler env fl2 sched2 r2 (handler env fl1 sched1 r1 s).store).response =
          { status := 200,
            body := Body.text
              (jsonp r2.jsonpCallback (formatInt nU) (formatInt (nP + 1))
                (formatInt (nS + 1))) } ∧
        (members (handler env fl2 sched2 r2 (handler env fl1 sched1 r1 s).store).store
            (siteUvKey env.Prefix u.hostname)).card ≤
          (members s (siteUvKey env.Prefix u.hostname)).card + 1 := by
  rw [handler_accepted env fl1 sched1 r1 s u hcb1 href1 hparse1 hs1] at hok2 ⊢
  rw [handler_accepted env fl2 sched2 r2 _ u hcb2 href2 hparse2 hs2]
  simp only at hok2 ⊢
  rw [hip] at hok2 ⊢
  obtain ⟨⟨_, _, f3, f4⟩, ⟨a, hA⟩, ⟨nU, hU⟩, ⟨nS, hS⟩, ⟨nP, hP⟩⟩ :=
    (allOk_iff _ _ _ _ _).mp hok1
  obtain ⟨⟨_, _, g3, g4⟩, ⟨a2, hA2⟩, ⟨nU2, hU2⟩, ⟨nS2, hS2⟩, ⟨nP2, hP2⟩⟩ :=
    (allOk_iff _ _ _ _ _).mp hok2
  have m1 := members_of_set (finalStore_siteUv_ok _ _ _ _ _ a hA)
  have m2 := members_of_set (finalStore_siteUv_ok _ _ _ _ _ a2 hA2)
  rw [m1, Finset.insert_idem] at m2
  have eU := scardReply_actual _ _ _ _ _ nU hU
  have eU2 := scardReply_actual _ _ _ _ _ nU2 hU2
  rw [m1] at eU
  rw [m2] at eU2
  have eS := sitePvReply_actual env.Prefix u r1.clientIP fl1 s nS f3 hS
  have eS2 := sitePvReply_actual env.Prefix u r1.clientIP fl2 _ nS2 g3 hS2
  have eP := pagePvReply_actual env.Prefix u r1.clientIP fl1 s nP f4 hP
  have eP2 := pagePvReply_actual env.Prefix u r1.clientIP fl2 _ nP2 g4 hP2
  rw [hget_of_hash eS.2, Function.update_same, ← eS.1] at eS2
  rw [hget_of_hash eP.2, Function.update_same, ← eP.1] at eP2
  refine ⟨nU, nP, nS, ?_, ?_, ?_⟩
  · rw [hU, hS, hP]
    rfl
  · rw [hU2, hS2, hP2, eU2, ← eU, eS2.1, eP2.1]
    rfl
  · rw [m2]
    exact Finset.card_insert_le _ _

/-- C4 at the worked example sent twice, the second time with another callback and
another interleaving of the goroutines. -/
theorem C4_two_requests_witness :
    ((handler exampleEnv noFaults programOrder exampleRequest emptyStore).response =
        { status := 200,
          body := Body.text
            "try\x7bcb(\x7b\"site_uv\":1,\"page_pv\":1,\"version\":2.4,\"site_pv\":1\x7d)\x7dcatch(e)\x7b\x7d" } ∧
      (handler exampleEnv noFaults [Op.pagePv, Op.sadd, Op.sitePv, Op.scard]
        { exampleRequest with jsonpCallback := "f" }
        (handler exampleEnv noFaults programOrder exampleRequest emptyStore).store).response =
        { status := 200,
          body := Body.text
            "try\x7bf(\x7b\"site_uv\":1,\"page_pv\":2,\"version\":2.4,\"site_pv\":2\x7d)\x7dcatch(e)\x7b\x7d" }) ∧
    ∃ nU nP nS : Int,
      (handler exampleEnv noFaults programOrder exampleRequest emptyStore).response =
          { status := 200,
            body := Body.text
              (jsonp exampleRequest.jsonpCallback (formatInt nU) (formatInt nP)
                (formatInt nS)) } ∧
        (handler exampleEnv noFaults [Op.pagePv, Op.sadd, Op.sitePv, Op.scard]
          { exampleRequest with jsonpCallback := "f" }
          (handler exampleEnv noFaults programOrder exampleRequest emptyStore).store).response =
          { status := 200,
            body := Body.text
              (jsonp "f" (formatInt nU) (formatInt (nP + 1)) (formatInt (nS + 1))) } ∧
        (members (handler exampleEnv noFaults [Op.pagePv, Op.sadd, Op.sitePv, Op.scard]
          { exampleRequest with jsonpCallback := "f" }
          (handler exampleEnv noFaults programOrder exampleRequest emptyStore).store).store
            (siteUvKey exampleEnv.Prefix exampleURL.hostname)).card ≤
          (members emptyStore (siteUvKey exampleEnv.Prefix exampleURL.hostname)).card + 1 :=
  ⟨⟨by decide, by decide⟩,
    C4_two_requests exampleEnv noFaults noFaults programOrder
      [Op.pagePv, Op.sadd, Op.sitePv, Op.scard] exampleRequest
      { exampleRequest with jsonpCallback := "f" } emptyStore exampleURL
      (by decide) (by decide) (by decide) (by decide) (by decide) (by decide) rfl
      (by decide) (by decide) (by decide) (by decide)⟩

/-- C5, as stated, fails: the prefixes `""` and `"site_uv:"` are different and both are
results of the load-time normalisation, and for the site `site_pv` the key of the visitor
set under the first is the key of the site hash under the second. A request served under
the first prefix then changes what a request under the second reports: its `HINCRBY` on
the site hash meets a set and fails, and `site_pv` reads `0` instead of `1`. -/
theorem C5_key_namespacing_counterexample :
    normalizePrefix "" = "" ∧ normalizePrefix "site_uv" = "site_uv:" ∧
      normalizePrefix "site_uv:" = "site_uv:" ∧ ("" : String) ≠ "site_uv:" ∧
      siteUvKey "" "site_pv" ∈ requestKeys "" "site_pv" ∧
      siteUvKey "" "site_pv" ∈ requestKeys "site_uv:" "site_pv" ∧
      plainParse underscoreRequest.referer = some { hostname := "site_pv", path := "/" } ∧
      (handler { Prefix := "site_uv:", parseRequestURI := plainParse } noFaults programOrder
        underscoreRequest emptyStore).response =
        { status := 200,
          body := Body.text
            "try\x7bcb(\x7b\"site_uv\":1,\"page_pv\":1,\"version\":2.4,\"site_pv\":1\x7d)\x7dcatch(e)\x7b\x7d" } ∧
      (handler { Prefix := "site_uv:", parseRequestURI := plainParse } noFaults programOrder
        underscoreRequest
        (handler { Prefix := "", parseRequestURI := plainParse } noFaults programOrder
          underscoreRequest emptyStore).store).response =
        { status := 200,
          body := Body.text
            "try\x7bcb(\x7b\"site_uv\":1,\"page_pv\":1,\"version\":2.4,\"site_pv\":0\x7d)\x7dcatch(e)\x7b\x7d" } := by
  refine ⟨by decide, by decide, by decide, by decide, by decide, by decide, by decide,
    by decide, by decide⟩

/-- C5, amended: for every site that is not `site_pv` and does not end in `:site_pv`,
every path and every two different configured prefixes (after load-time normalisation),
the three keys a request uses under one prefix are disjoint from the three keys it uses
under the other; a request served under the first prefix leaves the value at every key of
the second unchanged, and so every reply (`SCARD`, both `HINCRBY`) a request under the
second prefix gets is the one it would have got before. -/
theorem C5_key_namespacing_amended (env : Env) (p0 q0 : String) (fl : Faults)
    (sched : List Op) (req : Request) (s : Store) (u : URL)
    (hcb : req.jsonpCallback ≠ "") (href : req.referer ≠ "")
    (hparse : env.parseRequestURI req.referer = some u) (hs : ValidSchedule sched)
    (hp : env.Prefix = normalizePrefix p0)
    (hpq : normalizePrefix p0 ≠ normalizePrefix q0)
    (hsite : u.hostname ≠ "site_pv") (hsite2 : hasSuffix u.hostname ":site_pv" = false) :
    (∀ k ∈ requestKeys env.Prefix u.hostname,
        k ∉ requestKeys (normalizePrefix q0) u.hostname) ∧
      (∀ k ∈ requestKeys (normalizePrefix q0) u.hostname,
        (handler env fl sched req s).store k = s k) ∧
      ∀ (ip2 : String) (fl2 : Faults),
        scardReply (normalizePrefix q0) u ip2 fl2 (handler env fl sched req s).store =
          scardReply (normalizePrefix q0) u ip2 fl2 s ∧
        sitePvReply (normalizePrefix q0) u fl2 (handler env fl sched req s).store =
          sitePvReply (normalizePrefix q0) u fl2 s ∧
        pagePvReply (normalizePrefix q0) u fl2 (handler env fl sched req s).store =
          pagePvReply (normalizePrefix q0) u fl2 s := by
  have hd : ∀ k ∈ requestKeys env.Prefix u.hostname,
      k ∉ requestKeys (normalizePrefix q0) u.hostname := by
    rw [hp]
    exact requestKeys_disjoint (normalizePrefix p0) (normalizePrefix q0) u.hostname hpq
      (normalizePrefix_normal p0) (normalizePrefix_normal q0) hsite hsite2
  have hframe : ∀ k ∈ requestKeys (normalizePrefix q0) u.hostname,
      (handler env fl sched req s).store k = s k := by
    intro k hk
    rw [handler_accepted env fl sched req s u hcb href hparse hs]
    exact finalStore_frame _ _ _ _ _ k (fun hk2 => hd k hk2 hk)
  exact ⟨hd, hframe, fun ip2 fl2 => replies_congr (normalizePrefix q0) u ip2 fl2 s _ hframe⟩

/-- C5, amended, at a site that ends in `site_pv` without being it: a request for
`http://xsite_pv/` served under prefix `app:` (configured as `app`), against the empty
prefix. -/
theorem C5_key_namespacing_amended_witness :
    (∀ k ∈ requestKeys exampleEnv.Prefix "xsite_pv",
        k ∉ requestKeys (normalizePrefix "") "xsite_pv") ∧
      (∀ k ∈ requestKeys (normalizePrefix "") "xsite_pv",
        (handler exampleEnv noFaults programOrder
          { underscoreRequest with referer := "http://xsite_pv/" } emptyStore).store k =
          emptyStore k) ∧
      ∀ (ip2 : String) (fl2 : Faults),
        scardReply (normalizePrefix "") { hostname := "xsite_pv", path := "/" } ip2 fl2
            (handler exampleEnv noFaults programOrder
              { underscoreRequest with referer := "http://xsite_pv/" } emptyStore).store =
          scardReply (normalizePrefix "") { hostname := "xsite_pv", path := "/" } ip2 fl2
            emptyStore ∧
        sitePvReply (normalizePrefix "") { hostname := "xsite_pv", path := "/" } fl2
            (handler exampleEnv noFaults programOrder
              { underscoreRequest with referer := "http://xsite_pv/" } emptyStore).store =
          sitePvReply (normalizePrefix "") { hostname := "xsite_pv", path := "/" } fl2
            emptyStore ∧
        pagePvReply (normalizePrefix "") { hostname := "xsite_pv", path := "/" } fl2
            (handler exampleEnv noFaults programOrder
              { underscoreRequest with referer := "http://xsite_pv/" } emptyStore).store =
          pagePvReply (normalizePrefix "") { hostname := "xsite_pv", path := "/" } fl2
            emptyStore :=
  C5_key_namespacing_amended exampleEnv "app" "" noFaults programOrder
    { underscoreRequest with referer := "http://xsite_pv/" } emptyStore
    { hostname := "xsite_pv", path := "/" } (by decide) (by decide) (by decide) (by decide)
    (by decide) (by decide) (by decide) (by decide)

/-- C6 on the code: whatever the pings answer, the connectivity loop sends exactly three
pings and `init()` returns; in particular when every ping fails there is no panic and
the process goes on to serve. The test `i == 0` that guards the panic sits inside a loop
that runs only while `i > 0`. -/
theorem C6_ping_loop_never_panics (cfg : Config) (pingOk : Nat → Bool) :
    (init cfg pingOk).2 = (Startup.returned, 3) ∧ serves cfg pingOk = true ∧
      (init cfg (fun _ => false)).2 = (Startup.returned, 3) ∧
      serves cfg (fun _ => false) = true := by
  have h : ∀ f : Nat → Bool, pingLoop f 3 0 = (Startup.returned, 3) := by
    intro f
    simp only [pingLoop]
    cases f 0 <;> cases f 1 <;> cases f 2 <;> simp
  simp only [serves, init, h, decide_True, and_self]

/-- C10 on the code: the reply of `SAdd` is dropped. With every send of the `SADD`
executed but its reply lost, on an empty store, the call returns an error and the answer
carries `site_uv` 1; with every send of the `SADD` refused, on a store whose visitor set
has two members, the call returns an error and the answer carries `site_uv` 2. In both
the slot is not the default `0`. -/
theorem C10_sadd_failure_ignored :
    saddReply exampleEnv.Prefix exampleURL exampleRequest.clientIP
        { noFaults with sadd := always Fault.replyLost } emptyStore = Reply.err StoreErr.timeout ∧
      (handler exampleEnv { noFaults with sadd := always Fault.replyLost } programOrder
        exampleRequest emptyStore).response =
        { status := 200,
          body := Body.text
            "try\x7bcb(\x7b\"site_uv\":1,\"page_pv\":1,\"version\":2.4,\"site_pv\":1\x7d)\x7dcatch(e)\x7b\x7d" } ∧
      saddReply exampleEnv.Prefix exampleURL exampleRequest.clientIP
        { noFaults with sadd := always Fault.refused } visitedStore =
          Reply.err StoreErr.connection ∧
      (handler exampleEnv { noFaults with sadd := always Fault.refused } programOrder
        exampleRequest visitedStore).response =
        { status := 200,
          body := Body.text
            "try\x7bcb(\x7b\"site_uv\":2,\"page_pv\":1,\"version\":2.4,\"site_pv\":1\x7d)\x7dcatch(e)\x7b\x7d" } := by
  refine ⟨by decide, by decide, by decide, by decide⟩

/-- C9: the load-time normalisation maps the empty prefix to the empty prefix, leaves a
prefix that ends in `:` unchanged and appends exactly one `:` to any other non-empty
prefix; its result is empty or ends in `:`, and applying it twice is applying it once.
The handler takes the stored prefix as it is: on an empty store the keys an accepted
request creates are exactly `Prefix+"site_uv:"+host`, `Prefix+"site_pv"` and
`Prefix+"page_pv:"+host`, for any stored prefix, and on any store it writes no other
key. -/
theorem C9_prefix_normalisation :
    normalizePrefix "" = "" ∧
      (∀ p, hasSuffix p ":" = true → normalizePrefix p = p) ∧
      (∀ p, p ≠ "" → hasSuffix p ":" = false → normalizePrefix p = p ++ ":") ∧
      (∀ p, normalizePrefix p = "" ∨ hasSuffix (normalizePrefix p) ":" = true) ∧
      (∀ p, normalizePrefix (normalizePrefix p) = normalizePrefix p) ∧
      (∀ (env : Env) (sched : List Op) (req : Request) (u : URL),
        req.jsonpCallback ≠ "" → req.referer ≠ "" →
        env.parseRequestURI req.referer = some u → ValidSchedule sched →
        ∀ k, (handler env noFaults sched req emptyStore).store k ≠ none ↔
          (k = env.Prefix ++ "site_uv:" ++ u.hostname ∨ k = env.Prefix ++ "site_pv" ∨
            k = env.Prefix ++ "page_pv:" ++ u.hostname)) ∧
      (∀ (env : Env) (fl : Faults) (sched : List Op) (req : Request) (s : Store) (u : URL),
        req.jsonpCallback ≠ "" → req.referer ≠ "" →
        env.parseRequestURI req.referer = some u → ValidSchedule sched →
        ∀ k, k ≠ env.Prefix ++ "site_uv:" ++ u.hostname → k ≠ env.Prefix ++ "site_pv" →
          k ≠ env.Prefix ++ "page_pv:" ++ u.hostname →
          (handler env fl sched req s).store k = s k) := by
  refine ⟨by decide, ?_, ?_, ?_, ?_, ?_, ?_⟩
  · intro p h
    rcases normalizePrefix_cases p with h1 | h1 | h1
    · rw [h1.2, h1.1]
    · exact h1.2
    · rw [h1.2.1] at h
      exact absurd h (by decide)
  · intro p h0 h
    rcases normalizePrefix_cases p with h1 | h1 | h1
    · exact absurd h1.1 h0
    · rw [h1.1] at h
      exact absurd h (by decide)
    · exact h1.2.2
  · intro p
    rcases normalizePrefix_cases p with h1 | h1 | h1
    · exact Or.inl h1.2
    · rw [h1.2]
      exact Or.inr h1.1
    · rw [h1.2.2]
      exact Or.inr (hasSuffix_append_colon p)
  · intro p
    rcases normalizePrefix_cases p with h1 | h1 | h1
    · rw [h1.2]
      decide
    · rw [h1.2, h1.2]
    · rw [h1.2.2]
      rcases normalizePrefix_cases (p ++ ":") with h2 | h2 | h2
      · rw [h2.2, h2.1]
      · exact h2.2
      · rw [hasSuffix_append_colon] at h2
        exact absurd h2.2.1 (by decide)
  · intro env sched req u hcb href hparse hs k
    rw [handler_accepted env noFaults sched req emptyStore u hcb href hparse hs]
    obtain ⟨⟨_, _, f3, f4⟩, ⟨a, hA⟩, _, ⟨nS, hS⟩, ⟨nP, hP⟩⟩ :=
      (allOk_iff _ _ _ _ _).mp (allOk_emptyStore env.Prefix u req.clientIP)
    show finalStore env.Prefix u req.clientIP noFaults emptyStore k ≠ none ↔
      (k = siteUvKey env.Prefix u.hostname ∨ k = sitePvKey env.Prefix ∨
        k = pagePvKey env.Prefix u.hostname)
    constructor
    · intro hk
      by_contra hn
      refine hk ?_
      rw [finalStore_frame]
      · rfl
      · simpa only [requestKeys, List.mem_cons, List.mem_singleton, List.mem_nil_iff,
          or_false] using hn
    · rintro (rfl | rfl | rfl)
      · rw [finalStore_siteUv_ok _ _ _ _ _ a hA]
        simp
      · rw [(sitePvReply_actual _ _ _ _ _ nS f3 hS).2]
        simp
      · rw [(pagePvReply_actual _ _ _ _ _ nP f4 hP).2]
        simp
  · intro env fl sched req s u hcb href hparse hs k h1 h2 h3
    rw [handler_accepted env fl sched req s u hcb href hparse hs]
    apply finalStore_frame
    simp only [requestKeys, List.mem_cons, List.mem_singleton, List.mem_nil_iff, or_false,
      not_or]
    exact ⟨h1, h2, h3⟩

/-- C9 at the prefixes `app` and `app:`, and at a handler whose stored prefix has no
separator: it creates `appsite_pv`, not `app:site_pv`. -/
theorem C9_prefix_normalisation_witness :
    normalizePrefix "app" = "app:" ∧ normalizePrefix "app:" = "app:" ∧
      normalizePrefix (normalizePrefix "app") = normalizePrefix "app" ∧
      (handler { Prefix := "app", parseRequestURI := plainParse } noFaults programOrder
        exampleRequest emptyStore).store "appsite_pv" ≠ none ∧
      (handler { Prefix := "app", parseRequestURI := plainParse } noFaults programOrder
        exampleRequest emptyStore).store "app:site_pv" = none :=
  ⟨C9_prefix_normalisation.2.2.1 "app" (by decide) (by decide),
    C9_prefix_normalisation.2.1 "app:" (by decide),
    C9_prefix_normalisation.2.2.2.2.1 "app",
    (C9_prefix_normalisation.2.2.2.2.2.1 { Prefix := "app", parseRequestURI := plainParse }
      programOrder exampleRequest exampleURL (by decide) (by decide) (by decide) (by decide)
      "appsite_pv").mpr (Or.inr (Or.inl (by decide))),
    C9_prefix_normalisation.2.2.2.2.2.2 { Prefix := "app", parseRequestURI := plainParse }
      noFaults programOrder exampleRequest emptyStore exampleURL (by decide) (by decide)
      (by decide) (by decide) "app:site_pv" (by decide) (by decide) (by decide)⟩

end Busuanzi
